import Mathlib

/-!
# Seeks DHT: the virtual node of the Chord ring

A shallow embedding of `src/dht/DHTVirtualNode.cpp` and `src/dht/Location.cpp`.

* A `DHTKey` is a ring identifier, read as a natural number; a `NetAddress` is an
  endpoint, read as a natural number whose default-constructed value is `0`.
* A `Location*` is read as the key of an entry of the location table: the entry is
  looked up again whenever the pointer is dereferenced.
* The owning `DHTNode` (`_pnode`) with its dispatcher callbacks and its RPC client is
  an argument of every operation that talks to it. An out-parameter of a call is
  passed in with its current value and comes back with its value after the call.
* A function that can end the process or fault returns an `Outcome`; every call to
  the dispatcher, to the RPC client and to `setPredecessor(key, address)` is logged.
* `assert` is compiled in: a failing assertion ends the run with `assertFailed`.
-/

namespace dht

/-- Ring identifier (`DHTKey`), read as the number its bits write. -/
abbrev DHTKey := Nat

/-- Transport endpoint (`NetAddress`); `NetAddress()` is `0`. -/
abbrev NetAddress := Nat

/-- Error code type `dht_err`; an `int status` is cast to it unchanged. -/
abbrev dht_err := Int

/-- Modelled from the spec: the header that declares the `dht_err` codes is not part of
the sources. `Ok` is `0`, the value `find_successor` and `is_dead` start `status` from. -/
def DHT_ERR_OK : dht_err := 0

/-- Modelled from the spec: the `UnknownPeer` code of the missing header, some value
other than `Ok`, `Call` and `Timeout`. -/
def DHT_ERR_UNKNOWN_PEER : dht_err := 1

/-- Modelled from the spec: the `Call` code of the missing header. -/
def DHT_ERR_CALL : dht_err := 2

/-- Modelled from the spec: the `Timeout` code of the missing header. -/
def DHT_ERR_COM_TIMEOUT : dht_err := 3

/-- Number of set bits among the lowest `fuel` binary digits of `k`. -/
def popcount : Nat → Nat → Nat
  | 0, _ => 0
  | fuel + 1, k => k % 2 + popcount fuel (k / 2)

/-- Modelled from the spec: `DHTKey::count()`, the number of set bits of the key
(`DHTKey.cpp` is not part of the sources). A number `k` has at most `k` binary digits. -/
def DHTKey.count (k : DHTKey) : Nat := popcount k k

/-- Modelled from the spec: `DHTKey::between(lo, hi)` of the missing `DHTKey.cpp`: the key
lies on the open clockwise arc `(lo, hi)`, both endpoints excluded; when `lo == hi` the
arc is the whole ring minus `lo`. -/
def DHTKey.between (x lo hi : Nat) : Bool :=
  if lo < hi then decide (lo < x) && decide (x < hi)
  else decide (lo < x) || decide (x < hi)

/-- How a run of an operation ends. -/
inductive Outcome (α : Type) where
  /-- The function returned to its caller. -/
  | returned (a : α)
  /-- The process ended through `exit(code)`. -/
  | exited (code : Int)
  /-- An `assert` failed. -/
  | assertFailed
  /-- A null pointer was dereferenced. -/
  | nullDeref
  /-- The loop was still running when the iteration budget of the model ran out. -/
  | outOfFuel
deriving DecidableEq

/-- Sequencing: the rest of the function runs only if the first part returned. -/
def Outcome.bind {α β : Type} (o : Outcome α) (f : α → Outcome β) : Outcome β :=
  match o with
  | Outcome.returned a => f a
  | Outcome.exited c => Outcome.exited c
  | Outcome.assertFailed => Outcome.assertFailed
  | Outcome.nullDeref => Outcome.nullDeref
  | Outcome.outOfFuel => Outcome.outOfFuel

/-- A logged call. -/
inductive Call where
  | findClosestPredecessor_cb (recipientKey nodeKey : DHTKey)
  | RPC_findClosestPredecessor (recipientKey : DHTKey) (recipient : NetAddress) (nodeKey : DHTKey)
  | getSuccessor_cb (recipientKey : DHTKey)
  | RPC_getSuccessor (recipientKey : DHTKey) (recipient : NetAddress)
  | RPC_joinGetSucc (recipientKey : DHTKey) (recipient : NetAddress)
  | RPC_ping (recipientKey : DHTKey) (recipient : NetAddress)
  | setPredecessor (dk : DHTKey) (na : NetAddress)
deriving DecidableEq

/-- True for the two calls that ask a node for the closest predecessor of a key. -/
def Call.isFindClosestPredecessor : Call → Bool
  | Call.findClosestPredecessor_cb _ _ => true
  | Call.RPC_findClosestPredecessor _ _ _ => true
  | _ => false

/-- A `Location`: a key and its address (`Location.h`, constructor of `Location.cpp`). -/
structure Location where
  _key : DHTKey
  _na : NetAddress
deriving DecidableEq

/-- `Location::update`. -/
def Location.update (l : Location) (na : NetAddress) : Location :=
  if l._na ≠ na then { l with _na := na } else l

/-- The location table, its entries in insertion order. -/
abbrev LocationTable := List Location

/-- Modelled from the spec: `LocationTable::findLocation` of the missing
`LocationTable.cpp`: `find(k)` gives the entry of `k` or none and never creates. -/
def LocationTable.findLocation (lt : LocationTable) (dk : DHTKey) : Option Location :=
  lt.find? (fun l => decide (l._key = dk))

/-- Modelled from the spec: `LocationTable::addToLocationTable`: `add(k, addr)` inserts
and hands back the new entry; it fails with `DuplicateKey` when `k` is present, and the
caller's pointer is then left as it was (null at every call site). -/
def LocationTable.addToLocationTable (lt : LocationTable) (dk : DHTKey) (na : NetAddress) :
    LocationTable × Option Location :=
  match LocationTable.findLocation lt dk with
  | some _ => (lt, none)
  | none => (lt ++ [Location.mk dk na], some (Location.mk dk na))

/-- Write through a `Location*`: `loc->update(na)` on the entry with key `dk`. -/
def LocationTable.updateAt (lt : LocationTable) (dk : DHTKey) (na : NetAddress) : LocationTable :=
  lt.map (fun l => if l._key = dk then l.update na else l)

/-- Modelled from the spec: `LocationTable::addOrFindToLocationTable`: `addOrFind(k, addr)`
returns the existing entry, refreshing its address if different, or creates a new one. -/
def LocationTable.addOrFindToLocationTable (lt : LocationTable) (dk : DHTKey) (na : NetAddress) :
    LocationTable × Option Location :=
  match LocationTable.findLocation lt dk with
  | some l => (LocationTable.updateAt lt dk na, some (l.update na))
  | none => (lt ++ [Location.mk dk na], some (Location.mk dk na))

/-- Modelled from the spec: `LocationTable::removeLocation`: `remove(loc)` removes by id;
removing a handle that is not in the table is a no-op. -/
def LocationTable.removeLocation (lt : LocationTable) (loc : Location) : LocationTable :=
  lt.filter (fun l => decide (l._key ≠ loc._key))

/-- The successor list, head first. -/
abbrev SuccList := List DHTKey

/-- Modelled from the spec: `SuccList::set_direct_successor`, the `set_head(key)` of the
successor list: the head becomes the new direct successor. -/
def SuccList.set_direct_successor (l : SuccList) (dk : DHTKey) : SuccList :=
  match l with
  | [] => [dk]
  | _ :: t => dk :: t

/-- Modelled from the spec: `SuccList::removeKey`: `remove(key)` removes one entry. -/
def SuccList.removeKey (l : SuccList) (dk : DHTKey) : SuccList :=
  l.erase dk

/-- The key listed right after `dk` in the successor list, if there is one. -/
def SuccList.next : SuccList → DHTKey → Option DHTKey
  | [], _ => none
  | x :: t, dk => if x = dk then t.head? else SuccList.next t dk

/-- The finger table: slot `i` of `_locs` holds a `Location*` or null. -/
structure FingerTable where
  _locs : Nat → Option DHTKey

/-- Modelled from the spec: `FingerTable::removeLocation` of the missing `FingerTable.cpp`:
a slot that points at the removed Location is replaced with the successor of the removed
key (the key after it in the successor list), falling back to self. -/
def FingerTable.removeLocation (f : FingerTable) (self : DHTKey) (succs : SuccList)
    (loc : Location) : FingerTable :=
  { _locs := fun i =>
      if f._locs i = some loc._key then
        some ((SuccList.next succs loc._key).getD self)
      else f._locs i }

/-- The out-parameters of a `findClosestPredecessor` call: the closest predecessor and its
address, that node's own successor and its address when supplied, and the remote status. -/
structure FcpOut where
  dkres : DHTKey
  na : NetAddress
  dkres_succ : DHTKey
  dkres_succ_na : NetAddress
  status : Int
deriving DecidableEq

/-- The out-parameters of a `getSuccessor` or `joinGetSucc` call. -/
structure SuccOut where
  dkres : DHTKey
  na : NetAddress
  status : Int
deriving DecidableEq

/-- The collaborators a virtual node reaches through `_pnode`: the node's addresses, the
table of local virtual nodes, the two dispatcher callbacks and the RPC client
`_l1_client`. Each call maps its arguments and the incoming out-parameters to the
returned local error and the out-parameters after the call. -/
structure DHTNode where
  getNetAddress : NetAddress
  _l1_na : NetAddress
  findVNode : DHTKey → Bool
  findClosestPredecessor_cb : DHTKey → DHTKey → FcpOut → dht_err × FcpOut
  RPC_findClosestPredecessor :
    DHTKey → NetAddress → DHTKey → NetAddress → DHTKey → FcpOut → dht_err × FcpOut
  getSuccessor_cb : DHTKey → SuccOut → dht_err × SuccOut
  RPC_getSuccessor : DHTKey → NetAddress → DHTKey → NetAddress → SuccOut → dht_err × SuccOut
  RPC_joinGetSucc : DHTKey → NetAddress → DHTKey → NetAddress → SuccOut → dht_err × SuccOut
  RPC_ping : DHTKey → NetAddress → DHTKey → NetAddress → Int → dht_err × Int

/-- The fields of a `DHTVirtualNode`. -/
structure DHTVirtualNode where
  _idkey : DHTKey
  _successor : Option DHTKey
  _predecessor : Option DHTKey
  _successors : SuccList
  _lt : LocationTable
  _fgt : FingerTable

namespace DHTVirtualNode

/-- `DHTVirtualNode::getIdKey`. -/
def getIdKey (s : DHTVirtualNode) : DHTKey := s._idkey

/-- `DHTVirtualNode::getSuccessor`. -/
def getSuccessor (s : DHTVirtualNode) : Option DHTKey := s._successor

/-- `DHTVirtualNode::getNetAddress`. -/
def getNetAddress (pnode : DHTNode) : NetAddress := pnode.getNetAddress

/-- `DHTVirtualNode::findLocation`. -/
def findLocation (s : DHTVirtualNode) (dk : DHTKey) : Option Location :=
  LocationTable.findLocation s._lt dk

/-- `DHTVirtualNode::setSuccessor(const DHTKey&)`. -/
def setSuccessorKey (s : DHTVirtualNode) (dk : DHTKey) : Outcome DHTVirtualNode :=
  if 0 < DHTKey.count dk then
    Outcome.returned
      { s with _successor := some dk,
               _successors := SuccList.set_direct_successor s._successors dk }
  else Outcome.assertFailed

/-- `DHTVirtualNode::setSuccessor(const DHTKey&, const NetAddress&)`. -/
def setSuccessor (s : DHTVirtualNode) (dk : DHTKey) (na : NetAddress) :
    Outcome DHTVirtualNode :=
  if s._successor = some dk then
    match LocationTable.addOrFindToLocationTable s._lt dk na with
    | (_, none) => Outcome.exited (-1)
    | (lt1, some loc) =>
      Outcome.returned
        { s with _lt := LocationTable.updateAt lt1 loc._key na,
                 _fgt := { _locs := Function.update s._fgt._locs 0 (some loc._key) } }
  else
    let r :=
      match findLocation s dk with
      | some loc => (s._lt, some loc)
      | none => LocationTable.addToLocationTable s._lt dk na
    match r.2 with
    | none => Outcome.nullDeref
    | some loc =>
      (setSuccessorKey { s with _lt := r.1 } loc._key).bind fun s1 =>
        Outcome.returned
          { s1 with _fgt := { _locs := Function.update s1._fgt._locs 0 (some loc._key) } }

/-- `DHTVirtualNode::setPredecessor(const DHTKey&)`. -/
def setPredecessorKey (s : DHTVirtualNode) (dk : DHTKey) : DHTVirtualNode :=
  { s with _predecessor := some dk }

/-- `DHTVirtualNode::setPredecessor(const DHTKey&, const NetAddress&)`. -/
def setPredecessor (s : DHTVirtualNode) (dk : DHTKey) (na : NetAddress) :
    Outcome DHTVirtualNode :=
  if s._predecessor = some dk then
    match LocationTable.addOrFindToLocationTable s._lt dk na with
    | (_, none) => Outcome.exited (-1)
    | (lt1, some loc) =>
      Outcome.returned { s with _lt := LocationTable.updateAt lt1 loc._key na }
  else
    let r :=
      match findLocation s dk with
      | some loc => (s._lt, some loc)
      | none => LocationTable.addToLocationTable s._lt dk na
    match r.2 with
    | none => Outcome.nullDeref
    | some loc =>
      let s1 := setPredecessorKey { s with _lt := r.1 } loc._key
      Outcome.returned { s1 with _lt := LocationTable.updateAt s1._lt loc._key na }

/-- `DHTVirtualNode::is_dead`: the verdict, `status` after the call, and the calls made. -/
def is_dead (pnode : DHTNode) (s : DHTVirtualNode) (recipientKey : DHTKey) (na : NetAddress)
    (_status : Int) : Bool × Int × List Call :=
  if pnode.findVNode recipientKey then
    (false, DHT_ERR_OK, [])
  else
    let r := pnode.RPC_ping recipientKey na (getIdKey s) (getNetAddress pnode) DHT_ERR_OK
    if r.1 = DHT_ERR_OK ∧ r.2 = DHT_ERR_OK then
      (false, r.2, [Call.RPC_ping recipientKey na])
    else (true, r.2, [Call.RPC_ping recipientKey na])

/-- `DHTVirtualNode::notify`: the returned code with the state after the call, and the
calls made. -/
def notify (pnode : DHTNode) (s : DHTVirtualNode) (senderKey : DHTKey)
    (senderAddress : NetAddress) : Outcome (dht_err × DHTVirtualNode) × List Call :=
  let decision : Outcome Bool × List Call :=
    match s._predecessor with
    | none => (Outcome.returned true, [])
    | some pred =>
      match findLocation s pred with
      | none => (Outcome.nullDeref, [])
      | some pred_loc =>
        let d := is_dead pnode s pred_loc._key pred_loc._na 0
        if d.1 then (Outcome.returned true, d.2.2)
        else if DHTKey.between senderKey pred s._idkey then (Outcome.returned true, d.2.2)
        else (Outcome.returned false, d.2.2)
  match decision.1 with
  | Outcome.returned true =>
    ((setPredecessor s senderKey senderAddress).bind fun s1 =>
        Outcome.returned (DHT_ERR_OK, s1),
      decision.2 ++ [Call.setPredecessor senderKey senderAddress])
  | o => (o.bind fun _ => Outcome.returned (DHT_ERR_OK, s), decision.2)

/-- `DHTVirtualNode::ping`. -/
def ping (_s : DHTVirtualNode) (_senderKey : DHTKey) (_senderAddress : NetAddress) : dht_err :=
  DHT_ERR_OK

/-- `DHTVirtualNode::join`: the returned code, `status` after the call and the state after
the call, and the calls made. -/
def join (pnode : DHTNode) (s : DHTVirtualNode) (dk_bootstrap : DHTKey)
    (dk_bootstrap_na : NetAddress) (_senderKey : DHTKey) (status : Int) :
    Outcome (dht_err × Int × DHTVirtualNode) × List Call :=
  let s0 : DHTVirtualNode := { s with _predecessor := none }
  let r := pnode.RPC_joinGetSucc dk_bootstrap dk_bootstrap_na s._idkey pnode._l1_na
    (SuccOut.mk 0 0 status)
  let calls := [Call.RPC_joinGetSucc dk_bootstrap dk_bootstrap_na]
  if r.1 ≠ DHT_ERR_OK then
    (Outcome.returned (r.1, r.2.status, s0), calls)
  else if r.2.status = DHT_ERR_OK then
    ((setSuccessor s0 r.2.dkres r.2.na).bind fun s1 =>
        Outcome.returned (r.1, r.2.status, s1), calls)
  else (Outcome.returned (r.1, r.2.status, s0), calls)

/-- The variables of `find_predecessor` that live across iterations of its loop: the
location to iterate `rloc`, its successor `succloc`, the results `dkres` and `na`, the
number `ret` of reroutings so far, the hops of the route iterator, and the call log. -/
structure Route where
  rloc : Location
  succloc : Location
  dkres : DHTKey
  na : NetAddress
  ret : Int
  _hops : List Location
  calls : List Call

/-- The `static short retries = 2` of `find_predecessor`. -/
def retries : Int := 2

/-- The closest-predecessor call at the top of the loop body of `find_predecessor`
(source lines 232 to 250): the local dispatcher is asked first and, when it reports
`DHT_ERR_UNKNOWN_PEER`, the RPC client. The out-parameters start from `DHTKey()`,
`NetAddress()` and `status = -1`. -/
def closestPredecessorCall (pnode : DHTNode) (s : DHTVirtualNode) (nodeKey : DHTKey)
    (rloc : Location) : dht_err × FcpOut :=
  let c1 := pnode.findClosestPredecessor_cb rloc._key nodeKey (FcpOut.mk 0 0 0 0 (-1))
  if c1.1 = DHT_ERR_UNKNOWN_PEER then
    pnode.RPC_findClosestPredecessor rloc._key rloc._na (getIdKey s) (getNetAddress pnode)
      nodeKey c1.2
  else c1

/-- The calls logged by `closestPredecessorCall`. -/
def closestPredecessorLog (pnode : DHTNode) (nodeKey : DHTKey) (rloc : Location) :
    List Call :=
  if (pnode.findClosestPredecessor_cb rloc._key nodeKey (FcpOut.mk 0 0 0 0 (-1))).1 =
      DHT_ERR_UNKNOWN_PEER then
    [Call.findClosestPredecessor_cb rloc._key nodeKey,
     Call.RPC_findClosestPredecessor rloc._key rloc._na nodeKey]
  else [Call.findClosestPredecessor_cb rloc._key nodeKey]

/-- The successor call of the loop body of `find_predecessor` (source lines 334 to 337)
for the answer `o` of the closest-predecessor call: the local dispatcher first and, on
`DHT_ERR_UNKNOWN_PEER`, the RPC client. The local error is given back here although the
source drops it. -/
def successorCall (pnode : DHTNode) (s : DHTVirtualNode) (o : FcpOut) : dht_err × SuccOut :=
  let g1 := pnode.getSuccessor_cb o.dkres (SuccOut.mk o.dkres_succ o.dkres_succ_na o.status)
  if g1.1 = DHT_ERR_UNKNOWN_PEER then
    pnode.RPC_getSuccessor o.dkres o.na (getIdKey s) (getNetAddress pnode) g1.2
  else g1

/-- The calls logged by `successorCall`. -/
def successorLog (pnode : DHTNode) (o : FcpOut) : List Call :=
  if (pnode.getSuccessor_cb o.dkres
      (SuccOut.mk o.dkres_succ o.dkres_succ_na o.status)).1 = DHT_ERR_UNKNOWN_PEER then
    [Call.getSuccessor_cb o.dkres, Call.RPC_getSuccessor o.dkres o.na]
  else [Call.getSuccessor_cb o.dkres]

/-- The test `succ_key.count() > 0 && (dht_err)status == DHT_ERR_OK` of source line 325:
the callee supplied its own successor. -/
def piggyback (o : FcpOut) : Bool :=
  decide (0 < DHTKey.count o.dkres_succ ∧ o.status = DHT_ERR_OK)

/-- One pass through the body of the `while` loop of `find_predecessor`: either the
function is left (left summand: how, and the calls made so far) or the loop test is
reached again with new variables (right summand).

The rerouting code that follows `exit(0)` in the source cannot run and is not written
out. -/
def find_predecessor_body (pnode : DHTNode) (s : DHTVirtualNode) (nodeKey : DHTKey)
    (r : Route) : (Outcome (dht_err × DHTKey × NetAddress) × List Call) ⊕ Route :=
  let c := closestPredecessorCall pnode s nodeKey r.rloc
  let log2 := r.calls ++ closestPredecessorLog pnode nodeKey r.rloc
  let err := c.1
  let o := c.2
  if err ≠ DHT_ERR_OK ∧ r.ret < retries ∧ (err = DHT_ERR_CALL ∨ err = DHT_ERR_COM_TIMEOUT) then
    Sum.inl (Outcome.exited 0, log2)
  else if o.status ≠ DHT_ERR_OK then
    Sum.inl (Outcome.returned (o.status, o.dkres, o.na), log2)
  else if ¬ 0 < DHTKey.count o.dkres then
    Sum.inl (Outcome.assertFailed, log2)
  else if ¬ o.dkres ≠ r.rloc._key then
    Sum.inl (Outcome.assertFailed, log2)
  else
    let rloc1 := Location.mk o.dkres o.na
    let hops1 := r._hops ++ [rloc1]
    let g : SuccOut :=
      if piggyback o then SuccOut.mk o.dkres_succ o.dkres_succ_na o.status
      else (successorCall pnode s o).2
    let log4 := if piggyback o then log2 else log2 ++ successorLog pnode o
    if ¬ piggyback o ∧ g.status ≠ DHT_ERR_OK then
      Sum.inl (Outcome.returned (g.status, o.dkres, o.na), log4)
    else if ¬ 0 < DHTKey.count g.dkres then
      Sum.inl (Outcome.assertFailed, log4)
    else
      Sum.inr
        { rloc := rloc1, succloc := Location.mk g.dkres g.na, dkres := o.dkres, na := o.na,
          ret := r.ret, _hops := hops1, calls := log4 }

/-- The `while` loop of `find_predecessor`, run for at most `fuel` passes through its
body, and what follows the loop. -/
def find_predecessor_loop (pnode : DHTNode) (s : DHTVirtualNode) (nodeKey : DHTKey) :
    Nat → Route → Outcome (dht_err × DHTKey × NetAddress) × List Call
  | fuel, r =>
    if DHTKey.between nodeKey r.rloc._key r.succloc._key then
      if 0 < DHTKey.count r.dkres then (Outcome.returned (DHT_ERR_OK, r.dkres, r.na), r.calls)
      else (Outcome.assertFailed, r.calls)
    else
      match fuel with
      | 0 => (Outcome.outOfFuel, r.calls)
      | fuel1 + 1 =>
        match find_predecessor_body pnode s nodeKey r with
        | Sum.inl res => res
        | Sum.inr r1 => find_predecessor_loop pnode s nodeKey fuel1 r1

/-- The variables of `find_predecessor` when its loop is first tested (source lines 194
to 220), for a node whose successor is `succ`. -/
def startRoute (pnode : DHTNode) (s : DHTVirtualNode) (succ : DHTKey) : Route :=
  { rloc := Location.mk s._idkey (getNetAddress pnode), succloc := Location.mk succ 0,
    dkres := getIdKey s, na := getNetAddress pnode, ret := 0,
    _hops := [Location.mk s._idkey (getNetAddress pnode)], calls := [] }

/-- `DHTVirtualNode::find_predecessor`: the returned code with `dkres` and `na` after the
call, and the calls made; `fuel` bounds the number of passes through the loop body. -/
def find_predecessor (pnode : DHTNode) (s : DHTVirtualNode) (nodeKey : DHTKey) (fuel : Nat) :
    Outcome (dht_err × DHTKey × NetAddress) × List Call :=
  match getSuccessor s with
  | none => (Outcome.exited (-1), [])
  | some succ => find_predecessor_loop pnode s nodeKey fuel (startRoute pnode s succ)

/-- `DHTVirtualNode::find_successor`, called with `dkres` and `na` holding the given
values: the returned code with `dkres` and `na` after the call, and the calls made. -/
def find_successor (pnode : DHTNode) (s : DHTVirtualNode) (nodeKey : DHTKey)
    (dkres : DHTKey) (na : NetAddress) (fuel : Nat) :
    Outcome (dht_err × DHTKey × NetAddress) × List Call :=
  let p := find_predecessor pnode s nodeKey fuel
  match p.1 with
  | Outcome.returned (dht_status, dk_pred, na_pred) =>
    if dht_status ≠ DHT_ERR_OK then (Outcome.returned (dht_status, dkres, na), p.2)
    else
      let g1 := pnode.getSuccessor_cb dk_pred (SuccOut.mk dkres na 0)
      let g2 :=
        if g1.1 = DHT_ERR_UNKNOWN_PEER then
          (pnode.RPC_getSuccessor dk_pred na_pred (getIdKey s) (getNetAddress pnode) g1.2).2
        else g1.2
      let log :=
        if g1.1 = DHT_ERR_UNKNOWN_PEER then
          p.2 ++ [Call.getSuccessor_cb dk_pred, Call.RPC_getSuccessor dk_pred na_pred]
        else p.2 ++ [Call.getSuccessor_cb dk_pred]
      (Outcome.returned (g2.status, g2.dkres, g2.na), log)
  | o => (o, p.2)

/-- `DHTVirtualNode::removeLocation`. -/
def removeLocation (s : DHTVirtualNode) (loc : Location) : DHTVirtualNode :=
  let fgt := FingerTable.removeLocation s._fgt s._idkey s._successors loc
  let succs := SuccList.removeKey s._successors loc._key
  let pred := if s._predecessor = some loc._key then none else s._predecessor
  { s with _fgt := fgt, _successors := succs, _predecessor := pred,
           _lt := LocationTable.removeLocation s._lt loc }

/-- `DHTVirtualNode::isPredecessorEqual`. -/
def isPredecessorEqual (s : DHTVirtualNode) (key : DHTKey) : Outcome Bool :=
  if s._predecessor.isSome then Outcome.returned false
  else
    match s._predecessor with
    | none => Outcome.nullDeref
    | some p => Outcome.returned (decide (p = key))

end DHTVirtualNode

/-! ## Notions used to state the properties -/

/-- The table after a Location for `dk` has been looked up and, when missing, created
with address `na`. -/
def LocationTable.ensure (lt : LocationTable) (dk : DHTKey) (na : NetAddress) :
    LocationTable :=
  match LocationTable.findLocation lt dk with
  | some _ => lt
  | none => lt ++ [Location.mk dk na]

/-- The table after a Location for `dk` has been looked up, or created when missing, and
its address rewritten to `na`. -/
def LocationTable.refresh (lt : LocationTable) (dk : DHTKey) (na : NetAddress) :
    LocationTable :=
  LocationTable.updateAt (LocationTable.ensure lt dk na) dk na

/-- The state in which `dk` is the predecessor and the table holds the address `na` for
it, everything else being as in `s`. -/
def DHTVirtualNode.withPredecessor (s : DHTVirtualNode) (dk : DHTKey) (na : NetAddress) :
    DHTVirtualNode :=
  { s with _predecessor := some dk, _lt := LocationTable.refresh s._lt dk na }

/-- The keys of the table's entries, in order. -/
def LocationTable.keys (lt : LocationTable) : List DHTKey :=
  lt.map Location._key

/-- The condition under which `notify` accepts the sender: no predecessor is set, or
`is_dead` reports the predecessor (key and address of its Location) dead, or the sender's
key is strictly inside the open clockwise arc from the predecessor to the node's id. -/
def DHTVirtualNode.accepts (pnode : DHTNode) (s : DHTVirtualNode) (senderKey : DHTKey) :
    Prop :=
  s._predecessor = none ∨
  (∃ p loc, s._predecessor = some p ∧ DHTVirtualNode.findLocation s p = some loc ∧
    (DHTVirtualNode.is_dead pnode s loc._key loc._na 0).1 = true) ∨
  (∃ p, s._predecessor = some p ∧ DHTKey.between senderKey p s._idkey = true)

/-- Handle validity: the successor and the predecessor, whenever set, are keys with an
entry in the location table. -/
def DHTVirtualNode.HandlesValid (s : DHTVirtualNode) : Prop :=
  (∀ k, s._successor = some k → (DHTVirtualNode.findLocation s k).isSome = true) ∧
  (∀ k, s._predecessor = some k → (DHTVirtualNode.findLocation s k).isSome = true)

/-- Clockwise distance from `a` to `b` on a ring of `M` identifiers, a full turn when
`a = b`: the number of steps after which a walk that leaves `a` clockwise reaches `b`. -/
def cwDist (M a b : Nat) : Nat :=
  if a = b then M else (b + M - a) % M

/-- The loop variables that the lookup for `nodeKey` passes through: the variables at the
first loop test, and those after each pass through the body made while the loop test
holds. -/
inductive DHTVirtualNode.Reach (pnode : DHTNode) (s : DHTVirtualNode) (nodeKey : DHTKey)
    (r0 : DHTVirtualNode.Route) : DHTVirtualNode.Route → Prop where
  | start : DHTVirtualNode.Reach pnode s nodeKey r0 r0
  | pass (r r1 : DHTVirtualNode.Route) :
      DHTVirtualNode.Reach pnode s nodeKey r0 r →
      DHTKey.between nodeKey r.rloc._key r.succloc._key = false →
      DHTVirtualNode.find_predecessor_body pnode s nodeKey r = Sum.inr r1 →
      DHTVirtualNode.Reach pnode s nodeKey r0 r1

/-- The calls of one pass through the loop body at `r` cooperate, on a ring of `M`
identifiers: the closest-predecessor call has local error OK and remote status OK and
answers a set key of the ring strictly inside the open clockwise arc from the current
node to the target; and when that answer carries no successor, the successor call has
local error OK and remote status OK and answers a set key. -/
def DHTVirtualNode.Cooperative (M : Nat) (pnode : DHTNode) (s : DHTVirtualNode)
    (nodeKey : DHTKey) (r : DHTVirtualNode.Route) : Prop :=
  let c := DHTVirtualNode.closestPredecessorCall pnode s nodeKey r.rloc
  c.1 = DHT_ERR_OK ∧ c.2.status = DHT_ERR_OK ∧
  DHTKey.between c.2.dkres r.rloc._key nodeKey = true ∧
  c.2.dkres ≠ 0 ∧ c.2.dkres < M ∧
  (DHTVirtualNode.piggyback c.2 = false →
    (DHTVirtualNode.successorCall pnode s c.2).1 = DHT_ERR_OK ∧
    (DHTVirtualNode.successorCall pnode s c.2).2.status = DHT_ERR_OK ∧
    (DHTVirtualNode.successorCall pnode s c.2).2.dkres ≠ 0)

/-- The successor reported for the node that the closest-predecessor answer `o` names: the
successor carried by the answer itself when it supplies one (source line 325), else the
answer of the successor call for that node (source lines 334 to 337). -/
def DHTVirtualNode.reportedSuccessor (pnode : DHTNode) (s : DHTVirtualNode) (o : FcpOut) :
    Location :=
  if DHTVirtualNode.piggyback o then Location.mk o.dkres_succ o.dkres_succ_na
  else
    Location.mk (DHTVirtualNode.successorCall pnode s o).2.dkres
      (DHTVirtualNode.successorCall pnode s o).2.na

/-- The loop variables `r` hold a node together with the successor reported for it: either
the node itself with its own successor `succ`, as at the first loop test, or the node
named by the closest-predecessor answer of a pass the lookup made, with the successor
reported for that node. -/
def DHTVirtualNode.HoldsReportedSuccessor (pnode : DHTNode) (s : DHTVirtualNode)
    (nodeKey succ : DHTKey) (r : DHTVirtualNode.Route) : Prop :=
  (r.rloc = Location.mk s._idkey (DHTVirtualNode.getNetAddress pnode) ∧
    r.succloc = Location.mk succ 0) ∨
  ∃ rp, DHTVirtualNode.Reach pnode s nodeKey (DHTVirtualNode.startRoute pnode s succ) rp ∧
    DHTKey.between nodeKey rp.rloc._key rp.succloc._key = false ∧
    r.rloc =
      Location.mk (DHTVirtualNode.closestPredecessorCall pnode s nodeKey rp.rloc).2.dkres
        (DHTVirtualNode.closestPredecessorCall pnode s nodeKey rp.rloc).2.na ∧
    r.succloc =
      DHTVirtualNode.reportedSuccessor pnode s
        (DHTVirtualNode.closestPredecessorCall pnode s nodeKey rp.rloc).2

/-- The answer of the bootstrap peer to the `RPC_joinGetSucc` call that `join` makes: the
local error and the out-parameters `dkres`, `na` and `status` after the call. -/
def DHTVirtualNode.joinAnswer (pnode : DHTNode) (s : DHTVirtualNode) (dk_bootstrap : DHTKey)
    (dk_bootstrap_na : NetAddress) (status : Int) : dht_err × SuccOut :=
  pnode.RPC_joinGetSucc dk_bootstrap dk_bootstrap_na s._idkey pnode._l1_na
    (SuccOut.mk 0 0 status)

/-! ## Example rings

Identifiers are written on a small ring as in the scenarios of the specification; the
node with id `k` has address `1000 + k`. -/

/-- The process hosting virtual node 2 of the ring {2, 6, 10, 14}, with fingers 6 and 10,
at a time when no remote peer answers: the dispatcher serves node 2 from its finger table
(highest finger strictly between 2 and the target, else node 2 itself, each with its
successor), reports `DHT_ERR_UNKNOWN_PEER` for any other recipient, and leaves the
out-parameters alone then; every RPC times out and leaves them alone too. -/
def unreachableRing : DHTNode :=
  { getNetAddress := 1002
    _l1_na := 1002
    findVNode := fun k => decide (k = 2)
    findClosestPredecessor_cb := fun recipient target o =>
      if recipient = 2 then
        if DHTKey.between 10 2 target then (DHT_ERR_OK, FcpOut.mk 10 1010 14 1014 DHT_ERR_OK)
        else if DHTKey.between 6 2 target then (DHT_ERR_OK, FcpOut.mk 6 1006 10 1010 DHT_ERR_OK)
        else (DHT_ERR_OK, FcpOut.mk 2 1002 6 1006 DHT_ERR_OK)
      else (DHT_ERR_UNKNOWN_PEER, o)
    RPC_findClosestPredecessor := fun _ _ _ _ _ o => (DHT_ERR_COM_TIMEOUT, o)
    getSuccessor_cb := fun recipient o =>
      if recipient = 2 then (DHT_ERR_OK, SuccOut.mk 6 1006 DHT_ERR_OK)
      else (DHT_ERR_UNKNOWN_PEER, o)
    RPC_getSuccessor := fun _ _ _ _ o => (DHT_ERR_COM_TIMEOUT, o)
    RPC_joinGetSucc := fun _ _ _ _ o => (DHT_ERR_COM_TIMEOUT, o)
    RPC_ping := fun _ _ _ _ st => (DHT_ERR_COM_TIMEOUT, st) }

/-- The same process when every remote peer answers: node 6 names 10 (successor 14) and
node 10 names 14 (successor 2) as closest predecessor, node 14 itself; every node reports
its ring successor; pings are answered OK. -/
def liveRing : DHTNode :=
  { unreachableRing with
    RPC_findClosestPredecessor := fun recipient _ _ _ _ _ =>
      if recipient = 6 then (DHT_ERR_OK, FcpOut.mk 10 1010 14 1014 DHT_ERR_OK)
      else if recipient = 10 then (DHT_ERR_OK, FcpOut.mk 14 1014 0 0 DHT_ERR_OK)
      else (DHT_ERR_OK, FcpOut.mk 14 1014 2 1002 DHT_ERR_OK)
    RPC_getSuccessor := fun recipient _ _ _ _ =>
      if recipient = 6 then (DHT_ERR_OK, SuccOut.mk 10 1010 DHT_ERR_OK)
      else if recipient = 10 then (DHT_ERR_OK, SuccOut.mk 14 1014 DHT_ERR_OK)
      else (DHT_ERR_OK, SuccOut.mk 2 1002 DHT_ERR_OK)
    RPC_joinGetSucc := fun _ _ _ _ _ => (DHT_ERR_OK, SuccOut.mk 6 1006 DHT_ERR_OK)
    RPC_ping := fun _ _ _ _ _ => (DHT_ERR_OK, DHT_ERR_OK) }

/-- Virtual node 2 of the ring {2, 6, 10, 14}: successor 6, predecessor 14. -/
def node2 : DHTVirtualNode :=
  { _idkey := 2
    _successor := some 6
    _predecessor := some 14
    _successors := [6, 10]
    _lt := [Location.mk 2 1002, Location.mk 6 1006, Location.mk 10 1010, Location.mk 14 1014]
    _fgt := { _locs := fun i => if i = 0 then some 6 else if i = 3 then some 10 else none } }

/-- The process of a ring whose only node has id 4: the dispatcher serves node 4, whose
finger lookup answers node 4 itself with successor 4. -/
def loneProcess : DHTNode :=
  { unreachableRing with
    getNetAddress := 1004
    _l1_na := 1004
    findVNode := fun k => decide (k = 4)
    findClosestPredecessor_cb := fun recipient _ o =>
      if recipient = 4 then (DHT_ERR_OK, FcpOut.mk 4 1004 4 1004 DHT_ERR_OK)
      else (DHT_ERR_UNKNOWN_PEER, o)
    getSuccessor_cb := fun recipient o =>
      if recipient = 4 then (DHT_ERR_OK, SuccOut.mk 4 1004 DHT_ERR_OK)
      else (DHT_ERR_UNKNOWN_PEER, o) }

/-- The only virtual node of its ring: id 4, successor 4. -/
def loneNode : DHTVirtualNode :=
  { _idkey := 4
    _successor := some 4
    _predecessor := none
    _successors := [4]
    _lt := [Location.mk 4 1004]
    _fgt := { _locs := fun i => if i = 0 then some 4 else none } }

/-- The process hosting virtual node 14 of the ring {0, 14} on 4 bits: its finger lookup
names node 0, whose successor is 14. -/
def zeroRing : DHTNode :=
  { liveRing with
    getNetAddress := 1014
    _l1_na := 1014
    findVNode := fun k => decide (k = 14)
    findClosestPredecessor_cb := fun recipient _ o =>
      if recipient = 14 then (DHT_ERR_OK, FcpOut.mk 0 1000 14 1014 DHT_ERR_OK)
      else (DHT_ERR_UNKNOWN_PEER, o) }

/-- Virtual node 14, with successor 15 and no predecessor. -/
def node14 : DHTVirtualNode :=
  { _idkey := 14
    _successor := some 15
    _predecessor := none
    _successors := [15]
    _lt := [Location.mk 14 1014, Location.mk 15 1015]
    _fgt := { _locs := fun i => if i = 0 then some 15 else none } }

/-- Virtual node 10 of the ring {2, 10}: successor 2, predecessor 2. -/
def node10 : DHTVirtualNode :=
  { _idkey := 10
    _successor := some 2
    _predecessor := some 2
    _successors := [2]
    _lt := [Location.mk 10 1010, Location.mk 2 1002]
    _fgt := { _locs := fun i => if i = 0 then some 2 else none } }

/-- A virtual node with id 8 that has not joined yet: no successor, no predecessor, only
its own Location in the table. -/
def unjoinedNode : DHTVirtualNode :=
  { _idkey := 8
    _successor := none
    _predecessor := none
    _successors := []
    _lt := [Location.mk 8 1008]
    _fgt := { _locs := fun _ => none } }

/-- The process of node 2 when the bootstrap peer answers `joinGetSucc` with local error
OK, remote status OK and the all-zero key. -/
def zeroBootstrap : DHTNode :=
  { liveRing with
    RPC_joinGetSucc := fun _ _ _ _ _ => (DHT_ERR_OK, SuccOut.mk 0 1000 DHT_ERR_OK) }

/-! ## Keys and the location table -/

theorem popcount_pos (fuel k : Nat) (hk : k ≠ 0) (hf : k ≤ fuel) : 0 < popcount fuel k := by
  induction fuel generalizing k with
  | zero => omega
  | succ n ih =>
    simp only [popcount]
    rcases Nat.mod_two_eq_zero_or_one k with h | h
    · have h2 : k / 2 ≠ 0 := by omega
      have := ih (k / 2) h2 (by omega)
      omega
    · omega

theorem popcount_zero (fuel : Nat) : popcount fuel 0 = 0 := by
  induction fuel with
  | zero => rfl
  | succ n ih => simp [popcount, ih]

theorem count_pos_iff (k : DHTKey) : 0 < DHTKey.count k ↔ k ≠ 0 := by
  constructor
  · intro h hk
    subst hk
    simp [DHTKey.count, popcount] at h
  · intro h
    exact popcount_pos k k h (le_refl k)

theorem between_iff (x lo hi : Nat) :
    DHTKey.between x lo hi = true ↔
      ((lo < hi ∧ lo < x ∧ x < hi) ∨ (hi ≤ lo ∧ (lo < x ∨ x < hi))) := by
  unfold DHTKey.between
  by_cases h : lo < hi
  · simp [h]
  · simp only [h, if_false, Bool.or_eq_true, decide_eq_true_eq]
    omega

theorem between_left_endpoint (lo hi : Nat) : DHTKey.between lo lo hi = false := by
  cases hb : DHTKey.between lo lo hi
  · rfl
  · rw [between_iff] at hb
    omega

theorem between_right_endpoint (lo hi : Nat) : DHTKey.between hi lo hi = false := by
  cases hb : DHTKey.between hi lo hi
  · rfl
  · rw [between_iff] at hb
    omega

theorem Location.update_eq (l : Location) (na : NetAddress) :
    l.update na = Location.mk l._key na := by
  unfold Location.update
  by_cases h : l._na = na
  · cases l
    simp_all
  · simp [h]

theorem findLocation_key {lt : LocationTable} {dk : DHTKey} {l : Location}
    (h : LocationTable.findLocation lt dk = some l) : l._key = dk := by
  unfold LocationTable.findLocation at h
  have := List.find?_some h
  simpa using this

theorem findLocation_append_new (lt : LocationTable) (dk : DHTKey) (na : NetAddress)
    (h : LocationTable.findLocation lt dk = none) :
    LocationTable.findLocation (lt ++ [Location.mk dk na]) dk = some (Location.mk dk na) := by
  unfold LocationTable.findLocation at *
  simp [List.find?_append, h]

theorem findLocation_updateAt_self (lt : LocationTable) (dk : DHTKey) (na : NetAddress)
    (l : Location) (h : LocationTable.findLocation lt dk = some l) :
    LocationTable.findLocation (LocationTable.updateAt lt dk na) dk =
      some (Location.mk dk na) := by
  induction lt with
  | nil => simp [LocationTable.findLocation] at h
  | cons x t ih =>
    unfold LocationTable.findLocation LocationTable.updateAt at *
    by_cases hx : x._key = dk
    · simp [List.find?, hx, Location.update_eq]
    · simp only [List.find?, hx, decide_False] at h
      simp only [List.map, List.find?, hx, if_false, decide_False]
      exact ih h

theorem updateAt_updateAt (lt : LocationTable) (dk : DHTKey) (na : NetAddress) :
    LocationTable.updateAt (LocationTable.updateAt lt dk na) dk na =
      LocationTable.updateAt lt dk na := by
  unfold LocationTable.updateAt
  rw [List.map_map]
  apply List.map_congr_left
  intro l _
  by_cases hx : l._key = dk
  · simp [hx, Location.update_eq]
  · simp [hx]

theorem findLocation_refresh (lt : LocationTable) (dk : DHTKey) (na : NetAddress) :
    LocationTable.findLocation (LocationTable.refresh lt dk na) dk =
      some (Location.mk dk na) := by
  unfold LocationTable.refresh LocationTable.ensure
  cases h : LocationTable.findLocation lt dk with
  | none =>
    exact findLocation_updateAt_self _ dk na _ (findLocation_append_new lt dk na h)
  | some l => exact findLocation_updateAt_self lt dk na l h

theorem refresh_of_found (lt : LocationTable) (dk : DHTKey) (na : NetAddress) (l : Location)
    (h : LocationTable.findLocation lt dk = some l) :
    LocationTable.refresh lt dk na = LocationTable.updateAt lt dk na := by
  unfold LocationTable.refresh LocationTable.ensure
  rw [h]

theorem refresh_refresh (lt : LocationTable) (dk : DHTKey) (na : NetAddress) :
    LocationTable.refresh (LocationTable.refresh lt dk na) dk na =
      LocationTable.refresh lt dk na := by
  rw [refresh_of_found _ dk na _ (findLocation_refresh lt dk na)]
  unfold LocationTable.refresh
  exact updateAt_updateAt _ dk na

/-! ## setPredecessor and notify -/

namespace DHTVirtualNode

theorem setPredecessor_eq (s : DHTVirtualNode) (dk : DHTKey) (na : NetAddress) :
    setPredecessor s dk na = Outcome.returned (withPredecessor s dk na) := by
  unfold setPredecessor withPredecessor LocationTable.refresh LocationTable.ensure
  by_cases hp : s._predecessor = some dk
  · simp only [hp, if_true]
    unfold LocationTable.addOrFindToLocationTable
    cases h : LocationTable.findLocation s._lt dk with
    | none => simp
    | some l =>
      have hk := findLocation_key h
      subst hk
      simp [Location.update_eq, updateAt_updateAt, hp]
  · simp only [hp, if_false]
    unfold findLocation LocationTable.addToLocationTable
    cases h : LocationTable.findLocation s._lt dk with
    | none => simp [setPredecessorKey]
    | some l =>
      have hk := findLocation_key h
      simp [setPredecessorKey, hk]

theorem is_dead_calls (pnode : DHTNode) (s : DHTVirtualNode) (k : DHTKey) (a : NetAddress)
    (st : Int) (dk : DHTKey) (na : NetAddress) :
    Call.setPredecessor dk na ∉ (is_dead pnode s k a st).2.2 := by
  unfold is_dead
  split
  · simp
  · simp only
    split <;> simp

theorem notify_spec (pnode : DHTNode) (s : DHTVirtualNode) (senderKey : DHTKey)
    (senderAddress : NetAddress)
    (hpred : ∀ p, s._predecessor = some p → (findLocation s p).isSome = true) :
    ∃ calls, Call.setPredecessor senderKey senderAddress ∉ calls ∧
      ((accepts pnode s senderKey ∧
          notify pnode s senderKey senderAddress =
            (Outcome.returned (DHT_ERR_OK, withPredecessor s senderKey senderAddress),
             calls ++ [Call.setPredecessor senderKey senderAddress])) ∨
        (¬ accepts pnode s senderKey ∧
          notify pnode s senderKey senderAddress =
            (Outcome.returned (DHT_ERR_OK, s), calls))) := by
  have hset := setPredecessor_eq s senderKey senderAddress
  cases hp : s._predecessor with
  | none =>
    refine ⟨[], by simp, Or.inl ⟨Or.inl hp, ?_⟩⟩
    simp only [notify, hp, hset, Outcome.bind]
  | some p =>
    have hsome := hpred p hp
    cases hl : findLocation s p with
    | none => simp [hl] at hsome
    | some loc =>
      refine ⟨(is_dead pnode s loc._key loc._na 0).2.2, is_dead_calls _ _ _ _ _ _ _, ?_⟩
      by_cases hd : (is_dead pnode s loc._key loc._na 0).1 = true
      · refine Or.inl ⟨Or.inr (Or.inl ⟨p, loc, hp, hl, hd⟩), ?_⟩
        simp only [notify, hp, hl, hd, if_true, hset, Outcome.bind]
      · by_cases hb : DHTKey.between senderKey p s._idkey = true
        · refine Or.inl ⟨Or.inr (Or.inr ⟨p, hp, hb⟩), ?_⟩
          simp [notify, hp, hl, hd, hb, hset, Outcome.bind]
        · refine Or.inr ⟨?_, ?_⟩
          · rintro (h | ⟨q, l2, hq, hl2, hd2⟩ | ⟨q, hq, hb2⟩)
            · rw [hp] at h
              exact Option.noConfusion h
            · rw [hp] at hq
              cases hq
              rw [hl] at hl2
              cases hl2
              exact hd hd2
            · rw [hp] at hq
              cases hq
              exact hb hb2
          · simp [notify, hp, hl, hd, hb, Outcome.bind]

/-- C1: from a state whose predecessor, if set, has an entry in the location table,
`notify` returns `DHT_ERR_OK`; it calls `setPredecessor(senderKey, senderAddress)` exactly
when no predecessor is set, or `is_dead` reports the predecessor dead, or the sender's key
is strictly inside the open arc (predecessor, own id); the call installs the sender as
predecessor with its address in the location table, and without the call the state is
unchanged. -/
theorem notify_accepts_iff (pnode : DHTNode) (s : DHTVirtualNode) (senderKey : DHTKey)
    (senderAddress : NetAddress)
    (hpred : ∀ p, s._predecessor = some p → (findLocation s p).isSome = true) :
    ∃ s1 calls,
      notify pnode s senderKey senderAddress = (Outcome.returned (DHT_ERR_OK, s1), calls) ∧
      (Call.setPredecessor senderKey senderAddress ∈ calls ↔ accepts pnode s senderKey) ∧
      (accepts pnode s senderKey →
        setPredecessor s senderKey senderAddress = Outcome.returned s1 ∧
        s1._predecessor = some senderKey ∧
        findLocation s1 senderKey = some (Location.mk senderKey senderAddress)) ∧
      (¬ accepts pnode s senderKey → s1 = s) := by
  obtain ⟨calls, hcalls, ⟨hacc, hrun⟩ | ⟨hacc, hrun⟩⟩ :=
    notify_spec pnode s senderKey senderAddress hpred
  · refine ⟨_, _, hrun, by simp [hacc], fun _ => ?_, fun h => absurd hacc h⟩
    exact ⟨setPredecessor_eq s senderKey senderAddress, rfl,
      findLocation_refresh s._lt senderKey senderAddress⟩
  · exact ⟨_, _, hrun, by simp [hacc, hcalls], fun h => absurd h hacc, fun _ => rfl⟩

theorem node10_predecessor_found (p : DHTKey) (h : node10._predecessor = some p) :
    (findLocation node10 p).isSome = true := by
  obtain rfl : 2 = p := Option.some.inj h
  rfl

/-- Scenario 4 of the specification for C1: node 10 with live predecessor 2 is notified
by node 6. -/
theorem notify_accepts_iff_witness :
    ∃ s1 calls,
      notify liveRing node10 6 1006 = (Outcome.returned (DHT_ERR_OK, s1), calls) ∧
      (Call.setPredecessor 6 1006 ∈ calls ↔ accepts liveRing node10 6) ∧
      (accepts liveRing node10 6 →
        setPredecessor node10 6 1006 = Outcome.returned s1 ∧
        s1._predecessor = some 6 ∧
        findLocation s1 6 = some (Location.mk 6 1006)) ∧
      (¬ accepts liveRing node10 6 → s1 = node10) :=
  notify_accepts_iff liveRing node10 6 1006 node10_predecessor_found

/-- C7: from a state whose predecessor, if set, has an entry in the location table, a
second `notify` from the same sender, with the same liveness answers, returns
`DHT_ERR_OK` like the first and leaves the state exactly as the first call left it. -/
theorem notify_idempotent (pnode : DHTNode) (s : DHTVirtualNode) (senderKey : DHTKey)
    (senderAddress : NetAddress)
    (hpred : ∀ p, s._predecessor = some p → (findLocation s p).isSome = true) :
    ∃ s1 calls1 calls2,
      notify pnode s senderKey senderAddress = (Outcome.returned (DHT_ERR_OK, s1), calls1) ∧
      notify pnode s1 senderKey senderAddress =
        (Outcome.returned (DHT_ERR_OK, s1), calls2) := by
  obtain ⟨calls, _, ⟨_, hrun⟩ | ⟨hacc, hrun⟩⟩ :=
    notify_spec pnode s senderKey senderAddress hpred
  · have hpred1 : ∀ p,
        (withPredecessor s senderKey senderAddress)._predecessor = some p →
        (findLocation (withPredecessor s senderKey senderAddress) p).isSome = true := by
      intro p hp
      obtain rfl : senderKey = p := Option.some.inj hp
      simp [findLocation, withPredecessor, findLocation_refresh]
    obtain ⟨calls2, _, ⟨_, hrun2⟩ | ⟨_, hrun2⟩⟩ :=
      notify_spec pnode _ senderKey senderAddress hpred1
    · have hsame : withPredecessor (withPredecessor s senderKey senderAddress) senderKey
          senderAddress = withPredecessor s senderKey senderAddress := by
        simp [withPredecessor, refresh_refresh]
      rw [hsame] at hrun2
      exact ⟨_, _, _, hrun, hrun2⟩
    · exact ⟨_, _, _, hrun, hrun2⟩
  · exact ⟨s, _, _, hrun, hrun⟩

/-- C7 on scenario 4: node 10 with predecessor 2 is notified twice by node 6. -/
theorem notify_idempotent_witness :
    ∃ s1 calls1 calls2,
      notify liveRing node10 6 1006 = (Outcome.returned (DHT_ERR_OK, s1), calls1) ∧
      notify liveRing s1 6 1006 = (Outcome.returned (DHT_ERR_OK, s1), calls2) :=
  notify_idempotent liveRing node10 6 1006 node10_predecessor_found

/-! ## find_predecessor: the loop test -/

theorem find_predecessor_of_between (pnode : DHTNode) (s : DHTVirtualNode)
    (nodeKey succ : DHTKey) (fuel : Nat) (hid : s._idkey ≠ 0) (hs : s._successor = some succ)
    (hb : DHTKey.between nodeKey s._idkey succ = true) :
    find_predecessor pnode s nodeKey fuel =
      (Outcome.returned (DHT_ERR_OK, s._idkey, pnode.getNetAddress), []) := by
  have hc : 0 < DHTKey.count s._idkey := (count_pos_iff _).2 hid
  unfold find_predecessor getSuccessor
  rw [hs]
  cases fuel <;>
    simp [find_predecessor_loop, startRoute, hb, hc, getIdKey, getNetAddress]

theorem find_predecessor_body_transport_error (pnode : DHTNode) (s : DHTVirtualNode)
    (nodeKey : DHTKey) (r : Route) (hret : r.ret < retries)
    (herr : (closestPredecessorCall pnode s nodeKey r.rloc).1 = DHT_ERR_CALL ∨
      (closestPredecessorCall pnode s nodeKey r.rloc).1 = DHT_ERR_COM_TIMEOUT) :
    find_predecessor_body pnode s nodeKey r =
      Sum.inl (Outcome.exited 0, r.calls ++ closestPredecessorLog pnode nodeKey r.rloc) := by
  have hne : (closestPredecessorCall pnode s nodeKey r.rloc).1 ≠ DHT_ERR_OK := by
    rcases herr with h | h <;> rw [h] <;> decide
  unfold find_predecessor_body
  simp only [hne, hret, herr, ne_eq, not_false_eq_true, and_self, if_true]

/-- C2 (failing input): node 2 of the ring {2, 6, 10, 14} looks up key 15; its own finger
lookup names node 10, the dispatcher does not know node 10 and the RPC to it times out.
`find_predecessor` then ends the process with `exit(0)`: no earlier hop is asked again and
nothing is returned to the caller. -/
theorem find_predecessor_timeout_exits :
    (unreachableRing.RPC_findClosestPredecessor 10 1010 2 1002 15
        (FcpOut.mk 0 0 0 0 (-1))).1 = DHT_ERR_COM_TIMEOUT ∧
    ∀ fuel, find_predecessor unreachableRing node2 15 (fuel + 2) =
      (Outcome.exited 0,
        [Call.findClosestPredecessor_cb 2 15, Call.findClosestPredecessor_cb 10 15,
         Call.RPC_findClosestPredecessor 10 1010 15]) :=
  ⟨rfl, fun _ => rfl⟩

theorem find_predecessor_self_answer_asserts (pnode : DHTNode) (s : DHTVirtualNode)
    (nodeKey succ : DHTKey) (fuel : Nat) (hs : s._successor = some succ) (hid : s._idkey ≠ 0)
    (hb : DHTKey.between nodeKey s._idkey succ = false)
    (herr : (closestPredecessorCall pnode s nodeKey
      (Location.mk s._idkey (getNetAddress pnode))).1 = DHT_ERR_OK)
    (hst : (closestPredecessorCall pnode s nodeKey
      (Location.mk s._idkey (getNetAddress pnode))).2.status = DHT_ERR_OK)
    (hself : (closestPredecessorCall pnode s nodeKey
      (Location.mk s._idkey (getNetAddress pnode))).2.dkres = s._idkey) :
    find_predecessor pnode s nodeKey (fuel + 1) =
      (Outcome.assertFailed,
        closestPredecessorLog pnode nodeKey (Location.mk s._idkey (getNetAddress pnode))) := by
  have hc : 0 < DHTKey.count s._idkey := (count_pos_iff _).2 hid
  unfold find_predecessor getSuccessor
  rw [hs]
  simp only [find_predecessor_loop, startRoute, hb, Bool.false_eq_true, if_false]
  unfold find_predecessor_body
  simp [herr, hst, hself, hc]

/-- C3 (failing input): node 2 has successor 6 and looks up the target 6, which lies in the
half-open arc (2, 6]. The loop test `between` excludes the endpoint, so the body runs and
starts with a `findClosestPredecessor` call; the finger lookup of node 2 finds no finger
strictly between 2 and 6 and answers node 2 itself, and that answer fails
`assert(dkres != rloc.getDHTKey())`: the lookup never returns (2, address of 2). -/
theorem find_predecessor_successor_target_calls :
    node2._successor = some 6 ∧ (6 : DHTKey) ≠ node2._idkey ∧ node2._idkey < 6 ∧
    (∀ o, unreachableRing.findClosestPredecessor_cb 2 6 o =
      (DHT_ERR_OK, FcpOut.mk 2 1002 6 1006 DHT_ERR_OK)) ∧
    (∀ fuel, find_predecessor unreachableRing node2 6 (fuel + 1) =
      (Outcome.assertFailed, [Call.findClosestPredecessor_cb 2 6])) ∧
    ∀ fuel,
      ¬ ((find_predecessor unreachableRing node2 6 fuel).1 =
            Outcome.returned (DHT_ERR_OK, 2, 1002) ∧
          ∀ c ∈ (find_predecessor unreachableRing node2 6 fuel).2,
            c.isFindClosestPredecessor = false) := by
  refine ⟨rfl, by decide, by decide, fun _ => rfl, fun _ => rfl, ?_⟩
  intro fuel
  cases fuel with
  | zero => decide
  | succ n =>
    have h : find_predecessor unreachableRing node2 6 (n + 1) =
        (Outcome.assertFailed, [Call.findClosestPredecessor_cb 2 6]) := rfl
    rw [h]
    decide

/-- Strictly inside the arc the loop is skipped: on a virtual node with a non-zero id whose
successor `succ` differs from its id, for every target strictly inside the open clockwise
arc (own id, `succ`), `find_predecessor` returns `DHT_ERR_OK` with (own id, own address)
and makes no call at all, whatever the iteration budget. -/
theorem find_predecessor_inside_arc (pnode : DHTNode) (s : DHTVirtualNode)
    (nodeKey succ : DHTKey) (fuel : Nat) (hid : s._idkey ≠ 0) (hs : s._successor = some succ)
    (_hne : succ ≠ s._idkey) (hb : DHTKey.between nodeKey s._idkey succ = true) :
    find_predecessor pnode s nodeKey fuel =
      (Outcome.returned (DHT_ERR_OK, s._idkey, pnode.getNetAddress), []) :=
  find_predecessor_of_between pnode s nodeKey succ fuel hid hs hb

/-- Node 2 with successor 6 looks up the target 3, strictly inside the arc. -/
theorem find_predecessor_inside_arc_witness :
    find_predecessor unreachableRing node2 3 1 =
      (Outcome.returned (DHT_ERR_OK, 2, 1002), []) :=
  find_predecessor_inside_arc unreachableRing node2 3 6 1 (by decide) rfl (by decide)
    (by decide)

/-- C4 (failing input): on the ring whose only node is 4, where the finger lookup for the
target 4 answers node 4 itself, `find_predecessor(4)` does not return (4, address of 4):
the loop test `between` excludes the target 4 from the arc (4, 4), the body runs, and the
answer 4 fails `assert(dkres != rloc.getDHTKey())`. -/
theorem find_predecessor_own_id_single_node :
    loneNode._successor = some loneNode._idkey ∧
    (∀ o, loneProcess.findClosestPredecessor_cb 4 4 o =
      (DHT_ERR_OK, FcpOut.mk 4 1004 4 1004 DHT_ERR_OK)) ∧
    (∀ fuel, find_predecessor loneProcess loneNode 4 (fuel + 1) =
      (Outcome.assertFailed, [Call.findClosestPredecessor_cb 4 4])) ∧
    ∀ fuel, (find_predecessor loneProcess loneNode 4 fuel).1 ≠
      Outcome.returned (DHT_ERR_OK, 4, 1004) := by
  refine ⟨rfl, fun _ => rfl, fun _ => rfl, ?_⟩
  intro fuel
  cases fuel with
  | zero => decide
  | succ n =>
    have h : find_predecessor loneProcess loneNode 4 (n + 1) =
        (Outcome.assertFailed, [Call.findClosestPredecessor_cb 4 4]) := rfl
    rw [h]
    decide

/-- On a one-node ring every other key is found at once: on a virtual node with a non-zero
id whose successor is its own id, for every target other than that id, `find_predecessor`
returns `DHT_ERR_OK` with (own id, own address) and makes no call, whatever the iteration
budget. -/
theorem find_predecessor_single_node (pnode : DHTNode) (s : DHTVirtualNode)
    (nodeKey : DHTKey) (fuel : Nat) (hid : s._idkey ≠ 0)
    (hs : s._successor = some s._idkey) (ht : nodeKey ≠ s._idkey) :
    find_predecessor pnode s nodeKey fuel =
      (Outcome.returned (DHT_ERR_OK, s._idkey, pnode.getNetAddress), []) := by
  apply find_predecessor_of_between pnode s nodeKey s._idkey fuel hid hs
  rw [between_iff]
  right
  refine ⟨le_refl _, ?_⟩
  rcases Nat.lt_or_gt_of_ne ht with h | h
  · exact Or.inr h
  · exact Or.inl h

/-- Scenario 1 of the specification: the only node 4 looks up key 9. -/
theorem find_predecessor_single_node_witness :
    find_predecessor loneProcess loneNode 9 0 =
      (Outcome.returned (DHT_ERR_OK, 4, 1004), []) :=
  find_predecessor_single_node loneProcess loneNode 9 0 (by decide) rfl (by decide)

/-! ## find_predecessor: termination on a cooperative ring -/

theorem cwDist_eq (M a b : Nat) (ha : a < M) (hb : b < M) :
    cwDist M a b = if a = b then M else if a < b then b - a else b + M - a := by
  unfold cwDist
  by_cases h : a = b
  · simp [h]
  · simp only [h, if_false]
    by_cases hab : a < b
    · simp only [hab, if_true]
      have h1 : b + M - a = (b - a) + M := by omega
      rw [h1, Nat.add_mod_right, Nat.mod_eq_of_lt (by omega)]
    · simp only [hab, if_false]
      exact Nat.mod_eq_of_lt (by omega)

theorem cwDist_pos (M a b : Nat) (ha : a < M) (hb : b < M) : 0 < cwDist M a b := by
  rw [cwDist_eq M a b ha hb]
  split
  · omega
  · split <;> omega

theorem cwDist_lt_of_between (M p cur target : Nat) (hp : p < M) (hc : cur < M)
    (ht : target < M) (hb : DHTKey.between p cur target = true) :
    cwDist M p target < cwDist M cur target := by
  rw [cwDist_eq M p target hp ht, cwDist_eq M cur target hc ht]
  rw [between_iff] at hb
  split_ifs <;> omega

theorem body_of_cooperative (M : Nat) (pnode : DHTNode) (s : DHTVirtualNode)
    (nodeKey : DHTKey) (r : Route) (hc : Cooperative M pnode s nodeKey r) :
    ∃ r1, find_predecessor_body pnode s nodeKey r = Sum.inr r1 ∧
      r1.rloc._key = (closestPredecessorCall pnode s nodeKey r.rloc).2.dkres ∧
      r1.dkres = r1.rloc._key ∧ r1.na = r1.rloc._na ∧ 0 < DHTKey.count r1.dkres ∧
      r1._hops.length = r._hops.length + 1 := by
  unfold Cooperative at hc
  unfold find_predecessor_body
  cases hcall : closestPredecessorCall pnode s nodeKey r.rloc with
  | mk err o =>
    rw [hcall] at hc
    simp only at hc
    obtain ⟨herr, hst, hb, hne, _, hsucc⟩ := hc
    have hcount : 0 < DHTKey.count o.dkres := (count_pos_iff _).2 hne
    have hcur : o.dkres ≠ r.rloc._key := by
      intro h
      rw [h, between_left_endpoint] at hb
      exact Bool.noConfusion hb
    cases hp : piggyback o with
    | true =>
      have hsk : 0 < DHTKey.count o.dkres_succ := by
        simp only [piggyback, decide_eq_true_eq] at hp
        exact hp.1
      simp [herr, hst, hcount, hcur, hp, hsk]
    | false =>
      obtain ⟨_, hs2, hk2⟩ := hsucc hp
      have hsk : 0 < DHTKey.count (successorCall pnode s o).2.dkres :=
        (count_pos_iff _).2 hk2
      simp [herr, hst, hcount, hcur, hp, hsk, hs2]

theorem find_predecessor_loop_terminates (M : Nat) (pnode : DHTNode) (s : DHTVirtualNode)
    (nodeKey : DHTKey) (r0 : Route) (htM : nodeKey < M)
    (hcoop : ∀ r, Reach pnode s nodeKey r0 r →
      DHTKey.between nodeKey r.rloc._key r.succloc._key = false →
      Cooperative M pnode s nodeKey r) :
    ∀ (d : Nat) (r : Route), Reach pnode s nodeKey r0 r →
      r.dkres = r.rloc._key → r.na = r.rloc._na → 0 < DHTKey.count r.dkres →
      r.rloc._key < M → cwDist M r.rloc._key nodeKey ≤ d →
      ∃ n r1, n < d ∧ r1._hops.length = r._hops.length + n ∧
        Reach pnode s nodeKey r0 r1 ∧
        DHTKey.between nodeKey r1.rloc._key r1.succloc._key = true ∧
        ∀ fuel, n ≤ fuel →
          find_predecessor_loop pnode s nodeKey fuel r =
            (Outcome.returned (DHT_ERR_OK, r1.rloc._key, r1.rloc._na), r1.calls) := by
  intro d
  induction d with
  | zero =>
    intro r _ _ _ _ hM hd
    have := cwDist_pos M r.rloc._key nodeKey hM htM
    omega
  | succ d ih =>
    intro r hreach hdk hna hcount hM hd
    cases hb : DHTKey.between nodeKey r.rloc._key r.succloc._key with
    | true =>
      refine ⟨0, r, Nat.succ_pos d, rfl, hreach, hb, ?_⟩
      intro fuel _
      have hcount1 : 0 < DHTKey.count r.rloc._key := hdk ▸ hcount
      cases fuel <;> simp [find_predecessor_loop, hb, hcount1, hdk, hna]
    | false =>
      have hc := hcoop r hreach hb
      obtain ⟨r1, hbody, hkey, hdk1, hna1, hcount1, hlen⟩ :=
        body_of_cooperative M pnode s nodeKey r hc
      have hlt : r1.rloc._key < M := by
        rw [hkey]
        exact hc.2.2.2.2.1
      have hdist : cwDist M r1.rloc._key nodeKey < cwDist M r.rloc._key nodeKey := by
        apply cwDist_lt_of_between M _ _ _ hlt hM htM
        rw [hkey]
        exact hc.2.2.1
      obtain ⟨n, r2, hn, hlen2, hreach2, hb2, hrun⟩ :=
        ih r1 (Reach.pass r r1 hreach hb hbody) hdk1 hna1 hcount1 hlt (by omega)
      refine ⟨n + 1, r2, by omega, by omega, hreach2, hb2, ?_⟩
      intro fuel hfuel
      cases fuel with
      | zero => omega
      | succ f =>
        have := hrun f (by omega)
        simp [find_predecessor_loop, hb, hbody, this]

/-- C5 (counterexample): node 14 (successor 15) looks up key 3 on a 4-bit ring and its
closest-predecessor call succeeds (local error OK, remote status OK) with the key 0, which
lies strictly inside the open clockwise arc (14, 3); the lookup does not return: the
answer fails `assert(dkres.count()>0)`. -/
theorem find_predecessor_zero_key_answer :
    node14._successor = some 15 ∧
    closestPredecessorCall zeroRing node14 3 (startRoute zeroRing node14 15).rloc =
      (DHT_ERR_OK, FcpOut.mk 0 1000 14 1014 DHT_ERR_OK) ∧
    DHTKey.between 0 14 3 = true ∧
    (∀ fuel, find_predecessor zeroRing node14 3 (fuel + 1) =
      (Outcome.assertFailed, [Call.findClosestPredecessor_cb 14 3])) ∧
    ∀ fuel code p, (find_predecessor zeroRing node14 3 fuel).1 ≠ Outcome.returned (code, p) := by
  refine ⟨rfl, rfl, by decide, fun _ => rfl, ?_⟩
  intro fuel code p
  cases fuel with
  | zero =>
    have h : find_predecessor zeroRing node14 3 0 = (Outcome.outOfFuel, []) := rfl
    rw [h]
    exact fun h => Outcome.noConfusion h
  | succ n =>
    have h : find_predecessor zeroRing node14 3 (n + 1) =
        (Outcome.assertFailed, [Call.findClosestPredecessor_cb 14 3]) := rfl
    rw [h]
    exact fun h => Outcome.noConfusion h

theorem body_next_route (pnode : DHTNode) (s : DHTVirtualNode) (nodeKey : DHTKey)
    (r r1 : Route) (h : find_predecessor_body pnode s nodeKey r = Sum.inr r1) :
    r1.rloc =
      Location.mk (closestPredecessorCall pnode s nodeKey r.rloc).2.dkres
        (closestPredecessorCall pnode s nodeKey r.rloc).2.na ∧
    r1.succloc = reportedSuccessor pnode s (closestPredecessorCall pnode s nodeKey r.rloc).2 := by
  unfold find_predecessor_body at h
  simp only at h
  split_ifs at h with h1 h2 h3 h4 h5 h6 h7
  all_goals first
    | exact Sum.noConfusion h
    | (injection h with h
       subst h
       simp [reportedSuccessor, *])

theorem reach_holds_reported_successor (pnode : DHTNode) (s : DHTVirtualNode)
    (nodeKey succ : DHTKey) (r : Route)
    (h : Reach pnode s nodeKey (startRoute pnode s succ) r) :
    HoldsReportedSuccessor pnode s nodeKey succ r := by
  cases h with
  | start => exact Or.inl ⟨rfl, rfl⟩
  | pass rp _ hreach hb hbody =>
    obtain ⟨h1, h2⟩ := body_next_route pnode s nodeKey rp r hbody
    exact Or.inr ⟨rp, hreach, hb, h1, h2⟩

/-- C5 (amended): on a ring of `M` identifiers, for a node with a set successor and a
non-zero id and any target, suppose that at every loop test the lookup passes through with
the target outside the arc, the calls of the next pass cooperate: no call fails (local
error OK, remote status OK), the closest-predecessor answer is a non-zero key strictly
inside the open clockwise arc (current node, target), and a successor that has to be
fetched is a non-zero key. Then the loop makes `n` passes for some `n` smaller than the
clockwise distance from the node to the target (one hop is recorded per pass), and with
any iteration budget of at least `n` the lookup returns `DHT_ERR_OK` with the key `p` and
address of the loop variables then reached. These hold `p` together with the successor
`s` reported for `p` (the node's own successor when `p` is the node itself, else the
successor carried by the answer that named `p` or, failing that, the answer of the
successor call for `p`), and the target is in the open arc (`p`, `s`). -/
theorem find_predecessor_terminates (M : Nat) (pnode : DHTNode) (s : DHTVirtualNode)
    (nodeKey succ : DHTKey) (hs : s._successor = some succ) (hid : s._idkey ≠ 0)
    (hidM : s._idkey < M) (htM : nodeKey < M)
    (hcoop : ∀ r, Reach pnode s nodeKey (startRoute pnode s succ) r →
      DHTKey.between nodeKey r.rloc._key r.succloc._key = false →
      Cooperative M pnode s nodeKey r) :
    ∃ n r, n < cwDist M s._idkey nodeKey ∧ r._hops.length = n + 1 ∧
      Reach pnode s nodeKey (startRoute pnode s succ) r ∧
      HoldsReportedSuccessor pnode s nodeKey succ r ∧
      DHTKey.between nodeKey r.rloc._key r.succloc._key = true ∧
      ∀ fuel, n ≤ fuel →
        find_predecessor pnode s nodeKey fuel =
          (Outcome.returned (DHT_ERR_OK, r.rloc._key, r.rloc._na), r.calls) := by
  obtain ⟨n, r, hn, hlen, hreach, hb, hrun⟩ :=
    find_predecessor_loop_terminates M pnode s nodeKey (startRoute pnode s succ) htM hcoop
      (cwDist M s._idkey nodeKey) (startRoute pnode s succ) Reach.start rfl rfl
      ((count_pos_iff _).2 hid) hidM (le_refl _)
  refine ⟨n, r, hn, ?_, hreach,
    reach_holds_reported_successor pnode s nodeKey succ r hreach, hb, ?_⟩
  · rw [hlen]
    simp [startRoute]
    omega
  · intro fuel hfuel
    unfold find_predecessor getSuccessor
    rw [hs]
    exact hrun fuel hfuel

theorem liveRing_reach (r : Route)
    (h : Reach liveRing node2 1 (startRoute liveRing node2 6) r) :
    r = startRoute liveRing node2 6 ∨
    Sum.inr r = find_predecessor_body liveRing node2 1 (startRoute liveRing node2 6) ∨
    DHTKey.between 1 r.rloc._key r.succloc._key = true := by
  induction h with
  | start => exact Or.inl rfl
  | pass r r1 _ hb hbody ih =>
    rcases ih with h0 | h1 | h2
    · subst h0
      exact Or.inr (Or.inl hbody.symm)
    · change Sum.inr r = Sum.inr _ at h1
      injection h1 with h1
      subst h1
      change Sum.inr _ = Sum.inr r1 at hbody
      injection hbody with hbody
      subst hbody
      exact Or.inr (Or.inr rfl)
    · rw [h2] at hb
      exact Bool.noConfusion hb

theorem liveRing_cooperative (r : Route)
    (h : Reach liveRing node2 1 (startRoute liveRing node2 6) r)
    (hb : DHTKey.between 1 r.rloc._key r.succloc._key = false) :
    Cooperative 16 liveRing node2 1 r := by
  rcases liveRing_reach r h with h0 | h1 | h2
  · subst h0
    unfold Cooperative
    decide
  · change Sum.inr r = Sum.inr _ at h1
    injection h1 with h1
    subst h1
    unfold Cooperative
    decide
  · rw [h2] at hb
    exact Bool.noConfusion hb

/-- C5 (amended) on the ring {2, 6, 10, 14} of 16 identifiers: node 2 looks up key 1,
passing through node 10 to node 14. -/
theorem find_predecessor_terminates_witness :
    ∃ n r, n < cwDist 16 node2._idkey 1 ∧ r._hops.length = n + 1 ∧
      Reach liveRing node2 1 (startRoute liveRing node2 6) r ∧
      HoldsReportedSuccessor liveRing node2 1 6 r ∧
      DHTKey.between 1 r.rloc._key r.succloc._key = true ∧
      ∀ fuel, n ≤ fuel →
        find_predecessor liveRing node2 1 fuel =
          (Outcome.returned (DHT_ERR_OK, r.rloc._key, r.rloc._na), r.calls) :=
  find_predecessor_terminates 16 liveRing node2 1 6 rfl (by decide) (by decide) (by decide)
    liveRing_cooperative

/-! ## find_successor and isPredecessorEqual -/

/-- C9 (failing input): node 2 of the ring {2, 6, 10, 14} looks up key 7; `find_predecessor`
succeeds with node 6, the dispatcher reports `DHT_ERR_UNKNOWN_PEER` for node 6 and
`RPC_getSuccessor` times out, leaving `status` at the `0` it was started from.
`find_successor` returns `DHT_ERR_OK`, with the caller's `dkres` and `na` untouched. -/
theorem find_successor_ignores_transport_error :
    (find_predecessor unreachableRing node2 7 1).1 =
      Outcome.returned (DHT_ERR_OK, 6, 1006) ∧
    (unreachableRing.getSuccessor_cb 6 (SuccOut.mk 0 0 0)).1 = DHT_ERR_UNKNOWN_PEER ∧
    (unreachableRing.RPC_getSuccessor 6 1006 2 1002 (SuccOut.mk 0 0 0)).1 =
      DHT_ERR_COM_TIMEOUT ∧
    ∀ fuel, find_successor unreachableRing node2 7 0 0 (fuel + 1) =
      (Outcome.returned (DHT_ERR_OK, 0, 0),
        [Call.findClosestPredecessor_cb 2 7, Call.getSuccessor_cb 6,
         Call.RPC_getSuccessor 6 1006]) :=
  ⟨rfl, rfl, rfl, fun fuel => by cases fuel <;> rfl⟩

/-- C10 (failing input): node 10 has predecessor 2, yet `isPredecessorEqual(2)` returns
false; and on a node without predecessor the call dereferences the null pointer. -/
theorem isPredecessorEqual_inverted :
    node10._predecessor = some 2 ∧
    isPredecessorEqual node10 2 = Outcome.returned false ∧
    loneNode._predecessor = none ∧
    isPredecessorEqual loneNode 2 = Outcome.nullDeref :=
  ⟨rfl, rfl, rfl, rfl⟩

end DHTVirtualNode

/-! ## The keys of the location table -/

theorem keys_updateAt (lt : LocationTable) (dk : DHTKey) (na : NetAddress) :
    LocationTable.keys (LocationTable.updateAt lt dk na) = LocationTable.keys lt := by
  unfold LocationTable.keys LocationTable.updateAt
  rw [List.map_map]
  apply List.map_congr_left
  intro l _
  by_cases hx : l._key = dk
  · simp [hx, Location.update_eq]
  · simp [hx]

theorem findLocation_isSome_iff (lt : LocationTable) (dk : DHTKey) :
    (LocationTable.findLocation lt dk).isSome = true ↔ dk ∈ LocationTable.keys lt := by
  unfold LocationTable.findLocation LocationTable.keys
  rw [List.find?_isSome]
  simp

theorem findLocation_eq_none_iff (lt : LocationTable) (dk : DHTKey) :
    LocationTable.findLocation lt dk = none ↔ dk ∉ LocationTable.keys lt := by
  rw [← findLocation_isSome_iff]
  cases LocationTable.findLocation lt dk <;> simp

theorem keys_ensure (lt : LocationTable) (dk : DHTKey) (na : NetAddress) :
    LocationTable.keys (LocationTable.ensure lt dk na) =
      if dk ∈ LocationTable.keys lt then LocationTable.keys lt
      else LocationTable.keys lt ++ [dk] := by
  unfold LocationTable.ensure
  cases h : LocationTable.findLocation lt dk with
  | none =>
    have := (findLocation_eq_none_iff lt dk).1 h
    rw [if_neg this]
    simp [LocationTable.keys]
  | some l =>
    have : dk ∈ LocationTable.keys lt := (findLocation_isSome_iff lt dk).1 (by simp [h])
    simp [this]

theorem keys_refresh (lt : LocationTable) (dk : DHTKey) (na : NetAddress) :
    LocationTable.keys (LocationTable.refresh lt dk na) =
      if dk ∈ LocationTable.keys lt then LocationTable.keys lt
      else LocationTable.keys lt ++ [dk] := by
  unfold LocationTable.refresh
  rw [keys_updateAt, keys_ensure]

theorem mem_keys_ensure (lt : LocationTable) (dk : DHTKey) (na : NetAddress) (k : DHTKey) :
    k ∈ LocationTable.keys (LocationTable.ensure lt dk na) ↔
      k ∈ LocationTable.keys lt ∨ k = dk := by
  rw [keys_ensure]
  by_cases h : dk ∈ LocationTable.keys lt
  · simp only [h, if_true]
    constructor
    · exact Or.inl
    · rintro (h1 | h1)
      · exact h1
      · exact h1 ▸ h
  · simp [h]

theorem mem_keys_refresh (lt : LocationTable) (dk : DHTKey) (na : NetAddress) (k : DHTKey) :
    k ∈ LocationTable.keys (LocationTable.refresh lt dk na) ↔
      k ∈ LocationTable.keys lt ∨ k = dk := by
  unfold LocationTable.refresh
  rw [keys_updateAt, mem_keys_ensure]

theorem nodup_keys_ensure (lt : LocationTable) (dk : DHTKey) (na : NetAddress)
    (h : (LocationTable.keys lt).Nodup) :
    (LocationTable.keys (LocationTable.ensure lt dk na)).Nodup := by
  rw [keys_ensure]
  by_cases hm : dk ∈ LocationTable.keys lt
  · simpa [hm] using h
  · simp only [hm, if_false]
    rw [List.nodup_append]
    refine ⟨h, List.nodup_singleton dk, ?_⟩
    intro a ha hb
    simp at hb
    exact hm (hb ▸ ha)

theorem nodup_keys_refresh (lt : LocationTable) (dk : DHTKey) (na : NetAddress)
    (h : (LocationTable.keys lt).Nodup) :
    (LocationTable.keys (LocationTable.refresh lt dk na)).Nodup := by
  unfold LocationTable.refresh
  rw [keys_updateAt]
  exact nodup_keys_ensure lt dk na h

theorem filter_key_of_nodup (lt : LocationTable) (dk : DHTKey) (l : Location)
    (hn : (LocationTable.keys lt).Nodup) (hf : LocationTable.findLocation lt dk = some l) :
    lt.filter (fun x => decide (x._key = dk)) = [l] := by
  induction lt with
  | nil => simp [LocationTable.findLocation] at hf
  | cons x t ih =>
    unfold LocationTable.keys at hn
    rw [List.map_cons, List.nodup_cons] at hn
    unfold LocationTable.findLocation at hf
    by_cases hx : x._key = dk
    · simp only [List.find?, hx, decide_True] at hf
      cases hf
      have hnot : ∀ y ∈ t, ¬ (decide (y._key = dk) = true) := by
        intro y hy hyk
        simp only [decide_eq_true_eq] at hyk
        apply hn.1
        rw [hx, ← hyk]
        exact List.mem_map_of_mem Location._key hy
      rw [List.filter_cons_of_pos (by simp [hx]), List.filter_eq_nil_iff.2 hnot]
    · simp only [List.find?, hx, decide_False] at hf
      rw [List.filter_cons_of_neg (by simp [hx])]
      exact ih hn.2 hf

namespace DHTVirtualNode

/-! ## setSuccessor -/

theorem setSuccessor_spec (s : DHTVirtualNode) (dk : DHTKey) (na : NetAddress)
    (hk : dk ≠ 0) :
    ∃ s1, setSuccessor s dk na = Outcome.returned s1 ∧
      s1._successor = some dk ∧ s1._predecessor = s._predecessor ∧ s1._idkey = s._idkey ∧
      s1._lt = (if s._successor = some dk then LocationTable.refresh s._lt dk na
                else LocationTable.ensure s._lt dk na) ∧
      s1._fgt._locs 0 = some dk ∧
      s1._successors = (if s._successor = some dk then s._successors
                        else SuccList.set_direct_successor s._successors dk) := by
  have hc : 0 < DHTKey.count dk := (count_pos_iff dk).2 hk
  unfold setSuccessor LocationTable.refresh LocationTable.ensure
  by_cases hs : s._successor = some dk
  · simp only [hs, if_true]
    unfold LocationTable.addOrFindToLocationTable
    cases h : LocationTable.findLocation s._lt dk with
    | none => simp
    | some l =>
      have hkey := findLocation_key h
      subst hkey
      simp [Location.update_eq, updateAt_updateAt]
  · simp only [hs, if_false]
    unfold findLocation LocationTable.addToLocationTable
    cases h : LocationTable.findLocation s._lt dk with
    | none => simp [setSuccessorKey, hc, Outcome.bind]
    | some l =>
      have hkey := findLocation_key h
      subst hkey
      simp [setSuccessorKey, hc, Outcome.bind]

/-- C6: for a table whose keys are pairwise distinct and a non-zero key `k`,
`setSuccessor(k, a)` followed by `setSuccessor(k, a')` returns both times and leaves the
successor equal to `k` and exactly one Location for `k` in the table, with address `a'`. -/
theorem setSuccessor_twice (s : DHTVirtualNode) (k : DHTKey) (a a' : NetAddress)
    (hk : k ≠ 0) (hn : (LocationTable.keys s._lt).Nodup) :
    ∃ s1 s2, setSuccessor s k a = Outcome.returned s1 ∧
      setSuccessor s1 k a' = Outcome.returned s2 ∧
      s2._successor = some k ∧
      s2._lt.filter (fun l => decide (l._key = k)) = [Location.mk k a'] := by
  obtain ⟨s1, h1, hs1, _, _, hlt1, _, _⟩ := setSuccessor_spec s k a hk
  obtain ⟨s2, h2, hs2, _, _, hlt2, _, _⟩ := setSuccessor_spec s1 k a' hk
  refine ⟨s1, s2, h1, h2, hs2, ?_⟩
  rw [if_pos hs1] at hlt2
  have hn1 : (LocationTable.keys s1._lt).Nodup := by
    rw [hlt1]
    split
    · exact nodup_keys_refresh _ _ _ hn
    · exact nodup_keys_ensure _ _ _ hn
  rw [hlt2]
  exact filter_key_of_nodup _ k _ (nodup_keys_refresh _ _ _ hn1) (findLocation_refresh _ _ _)

/-- C6 at node 2: node 10 becomes the successor, then its address changes. -/
theorem setSuccessor_twice_witness :
    ∃ s1 s2, setSuccessor node2 10 2010 = Outcome.returned s1 ∧
      setSuccessor s1 10 3010 = Outcome.returned s2 ∧
      s2._successor = some 10 ∧
      s2._lt.filter (fun l => decide (l._key = 10)) = [Location.mk 10 3010] :=
  setSuccessor_twice node2 10 2010 3010 (by decide) (by decide)

/-! ## Handle validity -/

theorem handlesValid_iff (s : DHTVirtualNode) :
    HandlesValid s ↔
      (∀ k, s._successor = some k → k ∈ LocationTable.keys s._lt) ∧
      (∀ k, s._predecessor = some k → k ∈ LocationTable.keys s._lt) := by
  unfold HandlesValid findLocation
  simp only [findLocation_isSome_iff]

theorem handlesValid_setSuccessor (s : DHTVirtualNode) (h : HandlesValid s) (dk : DHTKey)
    (na : NetAddress) (hk : dk ≠ 0) :
    ∃ s1, setSuccessor s dk na = Outcome.returned s1 ∧ HandlesValid s1 := by
  obtain ⟨s1, h1, hs1, hp1, _, hlt1, _, _⟩ := setSuccessor_spec s dk na hk
  refine ⟨s1, h1, ?_⟩
  rw [handlesValid_iff] at h ⊢
  have hmem : ∀ k, (k ∈ LocationTable.keys s._lt ∨ k = dk) → k ∈ LocationTable.keys s1._lt := by
    intro k hk1
    rw [hlt1]
    split
    · exact (mem_keys_refresh _ _ _ _).2 hk1
    · exact (mem_keys_ensure _ _ _ _).2 hk1
  constructor
  · intro k hk1
    rw [hs1] at hk1
    exact hmem k (Or.inr (Option.some.inj hk1).symm)
  · intro k hk1
    rw [hp1] at hk1
    exact hmem k (Or.inl (h.2 k hk1))

theorem handlesValid_withPredecessor (s : DHTVirtualNode) (h : HandlesValid s) (dk : DHTKey)
    (na : NetAddress) : HandlesValid (withPredecessor s dk na) := by
  rw [handlesValid_iff] at h ⊢
  constructor
  · intro k hk1
    exact (mem_keys_refresh _ _ _ _).2 (Or.inl (h.1 k hk1))
  · intro k hk1
    exact (mem_keys_refresh _ _ _ _).2 (Or.inr (Option.some.inj hk1).symm)

theorem handlesValid_clearPredecessor (s : DHTVirtualNode) (h : HandlesValid s) :
    HandlesValid { s with _predecessor := none } := by
  rw [handlesValid_iff] at h ⊢
  exact ⟨h.1, fun k hk => Option.noConfusion hk⟩

theorem keys_removeLocation (lt : LocationTable) (loc : Location) (k : DHTKey) :
    k ∈ LocationTable.keys (LocationTable.removeLocation lt loc) ↔
      k ∈ LocationTable.keys lt ∧ k ≠ loc._key := by
  unfold LocationTable.keys LocationTable.removeLocation
  simp only [List.mem_map, List.mem_filter, decide_eq_true_eq]
  constructor
  · rintro ⟨l, ⟨hl, hne⟩, rfl⟩
    exact ⟨⟨l, hl, rfl⟩, hne⟩
  · rintro ⟨⟨l, hl, rfl⟩, hne⟩
    exact ⟨l, ⟨hl, hne⟩, rfl⟩

theorem handlesValid_removeLocation (s : DHTVirtualNode) (h : HandlesValid s)
    (loc : Location) (hs : s._successor ≠ some loc._key) :
    HandlesValid (removeLocation s loc) := by
  rw [handlesValid_iff] at h ⊢
  constructor
  · intro k hk1
    have hk2 : s._successor = some k := hk1
    refine (keys_removeLocation _ _ _).2 ⟨h.1 k hk2, ?_⟩
    intro hkl
    exact hs (hkl ▸ hk2)
  · intro k hk1
    by_cases hp : s._predecessor = some loc._key
    · simp [removeLocation, hp] at hk1
    · have hk2 : s._predecessor = some k := by
        simpa [removeLocation, hp] using hk1
      refine (keys_removeLocation _ _ _).2 ⟨h.2 k hk2, ?_⟩
      intro hkl
      exact hp (hkl ▸ hk2)

theorem handlesValid_join (pnode : DHTNode) (s : DHTVirtualNode) (h : HandlesValid s)
    (dk_bootstrap : DHTKey) (dk_bootstrap_na : NetAddress) (senderKey : DHTKey) (status : Int)
    (hz : (pnode.RPC_joinGetSucc dk_bootstrap dk_bootstrap_na s._idkey pnode._l1_na
            (SuccOut.mk 0 0 status)).1 = DHT_ERR_OK →
          (pnode.RPC_joinGetSucc dk_bootstrap dk_bootstrap_na s._idkey pnode._l1_na
            (SuccOut.mk 0 0 status)).2.status = DHT_ERR_OK →
          (pnode.RPC_joinGetSucc dk_bootstrap dk_bootstrap_na s._idkey pnode._l1_na
            (SuccOut.mk 0 0 status)).2.dkres ≠ 0) :
    ∃ e st1 s1 calls,
      join pnode s dk_bootstrap dk_bootstrap_na senderKey status =
        (Outcome.returned (e, st1, s1), calls) ∧ HandlesValid s1 := by
  have h0 := handlesValid_clearPredecessor s h
  unfold join
  simp only
  generalize pnode.RPC_joinGetSucc dk_bootstrap dk_bootstrap_na s._idkey pnode._l1_na
      (SuccOut.mk 0 0 status) = r at hz
  by_cases herr : r.1 = DHT_ERR_OK
  · by_cases hst : r.2.status = DHT_ERR_OK
    · obtain ⟨s1, h1, hv1⟩ := handlesValid_setSuccessor _ h0 r.2.dkres r.2.na (hz herr hst)
      rw [if_neg (by simp [herr]), if_pos hst, h1]
      exact ⟨_, _, _, _, rfl, hv1⟩
    · rw [if_neg (by simp [herr]), if_neg hst]
      exact ⟨_, _, _, _, rfl, h0⟩
  · rw [if_pos herr]
    exact ⟨_, _, _, _, rfl, h0⟩

theorem handlesValid_node2 : HandlesValid node2 := by
  rw [handlesValid_iff]
  constructor
  · intro k hk
    obtain rfl : 6 = k := Option.some.inj hk
    decide
  · intro k hk
    obtain rfl : 14 = k := Option.some.inj hk
    decide

/-- C8 (counterexample): node 2 has successor 6 and predecessor 14, both in its location
table; after `removeLocation` of the Location of 6 the successor is still 6, and the
table has no entry for 6. -/
theorem removeLocation_successor_left_dangling :
    HandlesValid node2 ∧ node2._successor = some 6 ∧
    (removeLocation node2 (Location.mk 6 1006))._successor = some 6 ∧
    findLocation (removeLocation node2 (Location.mk 6 1006)) 6 = none ∧
    ¬ HandlesValid (removeLocation node2 (Location.mk 6 1006)) := by
  refine ⟨handlesValid_node2, rfl, rfl, rfl, ?_⟩
  intro h
  have h6 := h.1 6 rfl
  exact absurd h6 (by decide)

/-- C8 (amended): from a state in which the successor and the predecessor, whenever set,
have an entry in the location table, each mutating operation gives a state with the same
property: `setSuccessor(key, addr)` for a non-zero key, `setPredecessor(key, addr)`,
`notify`, `join` (unless the bootstrap answers OK with the zero key), each of which
returns, and `removeLocation(loc)` for every Location whose key is not the current
successor. -/
theorem handlesValid_preserved (pnode : DHTNode) (s : DHTVirtualNode) (h : HandlesValid s) :
    (∀ dk na, dk ≠ 0 → ∃ s1, setSuccessor s dk na = Outcome.returned s1 ∧ HandlesValid s1) ∧
    (∀ dk na, ∃ s1, setPredecessor s dk na = Outcome.returned s1 ∧ HandlesValid s1) ∧
    (∀ senderKey senderAddress, ∃ s1 calls,
      notify pnode s senderKey senderAddress = (Outcome.returned (DHT_ERR_OK, s1), calls) ∧
      HandlesValid s1) ∧
    (∀ dk_bootstrap dk_bootstrap_na senderKey status,
      ((pnode.RPC_joinGetSucc dk_bootstrap dk_bootstrap_na s._idkey pnode._l1_na
            (SuccOut.mk 0 0 status)).1 = DHT_ERR_OK →
        (pnode.RPC_joinGetSucc dk_bootstrap dk_bootstrap_na s._idkey pnode._l1_na
            (SuccOut.mk 0 0 status)).2.status = DHT_ERR_OK →
        (pnode.RPC_joinGetSucc dk_bootstrap dk_bootstrap_na s._idkey pnode._l1_na
            (SuccOut.mk 0 0 status)).2.dkres ≠ 0) →
      ∃ e st1 s1 calls,
        join pnode s dk_bootstrap dk_bootstrap_na senderKey status =
          (Outcome.returned (e, st1, s1), calls) ∧ HandlesValid s1) ∧
    (∀ loc : Location, s._successor ≠ some loc._key → HandlesValid (removeLocation s loc)) := by
  refine ⟨fun dk na hk => handlesValid_setSuccessor s h dk na hk, fun dk na => ?_,
    fun senderKey senderAddress => ?_,
    fun bk ba sk st hz => handlesValid_join pnode s h bk ba sk st hz,
    fun loc hs => handlesValid_removeLocation s h loc hs⟩
  · exact ⟨_, setPredecessor_eq s dk na, handlesValid_withPredecessor s h dk na⟩
  · obtain ⟨calls, _, ⟨_, hrun⟩ | ⟨_, hrun⟩⟩ :=
      notify_spec pnode s senderKey senderAddress h.2
    · exact ⟨_, _, hrun, handlesValid_withPredecessor s h senderKey senderAddress⟩
    · exact ⟨_, _, hrun, h⟩

/-- C8 (amended) at node 2 of the ring {2, 6, 10, 14}. -/
theorem handlesValid_preserved_witness :
    (∀ dk na, dk ≠ 0 →
      ∃ s1, setSuccessor node2 dk na = Outcome.returned s1 ∧ HandlesValid s1) ∧
    (∀ dk na, ∃ s1, setPredecessor node2 dk na = Outcome.returned s1 ∧ HandlesValid s1) ∧
    (∀ senderKey senderAddress, ∃ s1 calls,
      notify liveRing node2 senderKey senderAddress =
        (Outcome.returned (DHT_ERR_OK, s1), calls) ∧
      HandlesValid s1) ∧
    (∀ dk_bootstrap dk_bootstrap_na senderKey status,
      ((liveRing.RPC_joinGetSucc dk_bootstrap dk_bootstrap_na node2._idkey liveRing._l1_na
            (SuccOut.mk 0 0 status)).1 = DHT_ERR_OK →
        (liveRing.RPC_joinGetSucc dk_bootstrap dk_bootstrap_na node2._idkey liveRing._l1_na
            (SuccOut.mk 0 0 status)).2.status = DHT_ERR_OK →
        (liveRing.RPC_joinGetSucc dk_bootstrap dk_bootstrap_na node2._idkey liveRing._l1_na
            (SuccOut.mk 0 0 status)).2.dkres ≠ 0) →
      ∃ e st1 s1 calls,
        join liveRing node2 dk_bootstrap dk_bootstrap_na senderKey status =
          (Outcome.returned (e, st1, s1), calls) ∧ HandlesValid s1) ∧
    (∀ loc : Location, node2._successor ≠ some loc._key →
      HandlesValid (removeLocation node2 loc)) :=
  handlesValid_preserved liveRing node2 handlesValid_node2

/-! ## is_dead, Location::update and the unjoined node -/

/-- C13: `is_dead` answers false (alive) for a key hosted by a local virtual node and
issues no ping; for any other key it issues exactly one `RPC_ping`, started with
`status = DHT_ERR_OK`, and answers true (dead) exactly when the ping's local error or
its remote status is not OK. -/
theorem is_dead_spec (pnode : DHTNode) (s : DHTVirtualNode) (recipientKey : DHTKey)
    (na : NetAddress) (status : Int) :
    (pnode.findVNode recipientKey = true →
      is_dead pnode s recipientKey na status = (false, DHT_ERR_OK, [])) ∧
    (pnode.findVNode recipientKey = false →
      (is_dead pnode s recipientKey na status).2.2 = [Call.RPC_ping recipientKey na] ∧
      ((is_dead pnode s recipientKey na status).1 = true ↔
        ((pnode.RPC_ping recipientKey na s._idkey pnode.getNetAddress DHT_ERR_OK).1 ≠
            DHT_ERR_OK ∨
         (pnode.RPC_ping recipientKey na s._idkey pnode.getNetAddress DHT_ERR_OK).2 ≠
            DHT_ERR_OK))) := by
  constructor
  · intro h
    simp [is_dead, h]
  · intro h
    unfold is_dead getIdKey getNetAddress
    simp only [h, Bool.false_eq_true, if_false]
    by_cases hok :
        (pnode.RPC_ping recipientKey na s._idkey pnode.getNetAddress DHT_ERR_OK).1 =
            DHT_ERR_OK ∧
          (pnode.RPC_ping recipientKey na s._idkey pnode.getNetAddress DHT_ERR_OK).2 =
            DHT_ERR_OK
    · simp [hok]
    · rw [if_neg hok]
      refine ⟨rfl, ?_⟩
      simp only [true_iff]
      by_cases h1 :
          (pnode.RPC_ping recipientKey na s._idkey pnode.getNetAddress DHT_ERR_OK).1 =
            DHT_ERR_OK
      · exact Or.inr (fun h2 => hok ⟨h1, h2⟩)
      · exact Or.inl h1

/-- C13 on the ring {2, 6, 10, 14}: node 2 is hosted locally and not pinged; node 6 is
pinged, and is dead when the ping times out. -/
theorem is_dead_spec_witness :
    is_dead unreachableRing node2 2 1002 0 = (false, DHT_ERR_OK, []) ∧
    (is_dead unreachableRing node2 6 1006 0).2.2 = [Call.RPC_ping 6 1006] ∧
    (is_dead unreachableRing node2 6 1006 0).1 = true ∧
    (is_dead liveRing node2 6 1006 0).1 = false :=
  ⟨(is_dead_spec unreachableRing node2 2 1002 0).1 rfl,
   ((is_dead_spec unreachableRing node2 6 1006 0).2 rfl).1,
   ((is_dead_spec unreachableRing node2 6 1006 0).2 rfl).2.2 (Or.inl (by decide)),
   rfl⟩

/-- C16: on a virtual node whose successor is unset, `find_predecessor`, and with it
`find_successor`, ends the process with `exit(-1)`, a failure status, for every target
and iteration budget: no dispatcher or RPC call is made and nothing is returned. -/
theorem find_predecessor_unset_successor_fatal (pnode : DHTNode) (s : DHTVirtualNode)
    (nodeKey dkres : DHTKey) (na : NetAddress) (fuel : Nat) (hs : s._successor = none) :
    find_predecessor pnode s nodeKey fuel = (Outcome.exited (-1), []) ∧
    find_successor pnode s nodeKey dkres na fuel = (Outcome.exited (-1), []) ∧
    (-1 : Int) ≠ 0 ∧
    ∀ res, (find_predecessor pnode s nodeKey fuel).1 ≠ Outcome.returned res ∧
      (find_successor pnode s nodeKey dkres na fuel).1 ≠ Outcome.returned res := by
  have hp : find_predecessor pnode s nodeKey fuel = (Outcome.exited (-1), []) := by
    unfold find_predecessor getSuccessor
    rw [hs]
  have hq : find_successor pnode s nodeKey dkres na fuel = (Outcome.exited (-1), []) := by
    unfold find_successor
    rw [hp]
  refine ⟨hp, hq, by decide, fun res => ?_⟩
  rw [hp, hq]
  exact ⟨fun h => Outcome.noConfusion h, fun h => Outcome.noConfusion h⟩

/-- C16 at node 8 before it has joined, looking up key 9. -/
theorem find_predecessor_unset_successor_fatal_witness :
    find_predecessor liveRing unjoinedNode 9 5 = (Outcome.exited (-1), []) ∧
    find_successor liveRing unjoinedNode 9 0 0 5 = (Outcome.exited (-1), []) ∧
    (-1 : Int) ≠ 0 ∧
    ∀ res, (find_predecessor liveRing unjoinedNode 9 5).1 ≠ Outcome.returned res ∧
      (find_successor liveRing unjoinedNode 9 0 0 5).1 ≠ Outcome.returned res :=
  find_predecessor_unset_successor_fatal liveRing unjoinedNode 9 0 0 5 rfl

end DHTVirtualNode

/-- C17: after `update(na)` the Location's address is `na` and its key is the one it had;
when `na` is the address it already had, the Location is unchanged. -/
theorem Location.update_spec (l : Location) (na : NetAddress) :
    (l.update na)._na = na ∧ (l.update na)._key = l._key ∧
    (na = l._na → l.update na = l) := by
  rw [Location.update_eq]
  refine ⟨rfl, rfl, ?_⟩
  intro h
  cases l
  simp_all

/-- C17 at the Location (10, 1010): a new address is written, the same address changes
nothing. -/
theorem Location.update_spec_witness :
    ((Location.mk 10 1010).update 2010)._na = 2010 ∧
    ((Location.mk 10 1010).update 2010)._key = 10 ∧
    (Location.mk 10 1010).update 1010 = Location.mk 10 1010 :=
  ⟨(Location.update_spec (Location.mk 10 1010) 2010).1,
   (Location.update_spec (Location.mk 10 1010) 2010).2.1,
   (Location.update_spec (Location.mk 10 1010) 1010).2.2 rfl⟩

namespace DHTVirtualNode

/-! ## setSuccessor: finger slot 0, successor list and stored address -/

theorem head_set_direct_successor (l : SuccList) (dk : DHTKey) :
    (SuccList.set_direct_successor l dk).head? = some dk := by
  cases l <;> rfl

/-- C12: from a state whose successor-list head is the successor field, for a non-zero key
`k`, `setSuccessor(k, a)` returns, and afterwards finger slot 0 points at `k`, the
successor field is `k` and the head of the successor list is `k`. -/
theorem setSuccessor_aligns_head (s : DHTVirtualNode) (k : DHTKey) (a : NetAddress)
    (hk : k ≠ 0) (hhead : s._successors.head? = s._successor) :
    ∃ s1, setSuccessor s k a = Outcome.returned s1 ∧
      s1._fgt._locs 0 = some k ∧ s1._successor = some k ∧ s1._successors.head? = some k := by
  obtain ⟨s1, h1, hs1, _, _, _, hf1, hl1⟩ := setSuccessor_spec s k a hk
  refine ⟨s1, h1, hf1, hs1, ?_⟩
  rw [hl1]
  by_cases hs : s._successor = some k
  · rw [if_pos hs, hhead, hs]
  · rw [if_neg hs]
    exact head_set_direct_successor _ _

/-- C12 at node 2 (successor 6, successor list 6, 10): node 10 becomes the successor. -/
theorem setSuccessor_aligns_head_witness :
    ∃ s1, setSuccessor node2 10 1010 = Outcome.returned s1 ∧
      s1._fgt._locs 0 = some 10 ∧ s1._successor = some 10 ∧
      s1._successors.head? = some 10 :=
  setSuccessor_aligns_head node2 10 1010 (by decide) rfl

theorem setSuccessor_other_keeps_entry (s : DHTVirtualNode) (k : DHTKey) (a : NetAddress)
    (l : Location) (hk : k ≠ 0) (hs : s._successor ≠ some k)
    (hl : findLocation s k = some l) :
    ∃ s1, setSuccessor s k a = Outcome.returned s1 ∧ s1._lt = s._lt := by
  obtain ⟨s1, h1, _, _, _, hlt1, _, _⟩ := setSuccessor_spec s k a hk
  refine ⟨s1, h1, ?_⟩
  rw [hlt1, if_neg hs]
  unfold LocationTable.ensure
  unfold findLocation at hl
  rw [hl]

/-- C18 (failing input): node 2 has successor 6 and knows node 10 at address 1010.
`setSuccessor(10, 2010)` makes 10 the successor and leaves its Location at the old
address 1010, whereas `setPredecessor(10, 2010)` on the same state stores 2010. -/
theorem setSuccessor_keeps_stale_address :
    node2._successor = some 6 ∧
    findLocation node2 10 = some (Location.mk 10 1010) ∧
    (∃ s1, setSuccessor node2 10 2010 = Outcome.returned s1 ∧ s1._successor = some 10 ∧
      findLocation s1 10 = some (Location.mk 10 1010)) ∧
    (∃ s1, setPredecessor node2 10 2010 = Outcome.returned s1 ∧
      s1._predecessor = some 10 ∧ findLocation s1 10 = some (Location.mk 10 2010)) :=
  ⟨rfl, rfl, ⟨_, rfl, rfl, rfl⟩, ⟨_, rfl, rfl, rfl⟩⟩

/-! ## removeLocation -/

theorem findLocation_removeLocation_self (lt : LocationTable) (loc : Location) :
    LocationTable.findLocation (LocationTable.removeLocation lt loc) loc._key = none := by
  rw [findLocation_eq_none_iff, keys_removeLocation]
  exact fun h => h.2 rfl

theorem findLocation_removeLocation_other (lt : LocationTable) (loc : Location) (k : DHTKey)
    (hk : k ≠ loc._key) :
    LocationTable.findLocation (LocationTable.removeLocation lt loc) k =
      LocationTable.findLocation lt k := by
  unfold LocationTable.findLocation LocationTable.removeLocation
  induction lt with
  | nil => rfl
  | cons x t ih =>
    by_cases hx : x._key = loc._key
    · have hxk : ¬ x._key = k := fun h => hk (h ▸ hx)
      rw [List.filter_cons_of_neg (by simp [hx])]
      simp only [List.find?, hxk, decide_False]
      exact ih
    · rw [List.filter_cons_of_pos (by simp [hx])]
      by_cases hxk : x._key = k
      · simp [List.find?, hxk]
      · simp only [List.find?, hxk, decide_False]
        exact ih

/-- C15 (counterexample): node 2 has successor list 6, 10; `setSuccessor(10, 1010)` makes it
10, 10, and after `removeLocation` of the Location of 10 the successor list still
contains the key 10. -/
theorem removeLocation_leaves_repeated_key :
    node2._successors = [6, 10] ∧
    ∃ s1, setSuccessor node2 10 1010 = Outcome.returned s1 ∧ s1._successors = [10, 10] ∧
      (removeLocation s1 (Location.mk 10 1010))._successors = [10] ∧
      (10 : DHTKey) ∈ (removeLocation s1 (Location.mk 10 1010))._successors :=
  ⟨rfl, _, rfl, rfl, rfl, by decide⟩

/-- C15 (amended): for every state and every Location, after `removeLocation(loc)` the
location table has no entry for the key of `loc`; the successor list has lost one
occurrence of that key and kept every other key, so that it does not contain the key when
the key was listed at most once; the predecessor is unset if it was that key and is
otherwise what it was; and the table entry of every other key is what it was. -/
theorem removeLocation_postcondition (s : DHTVirtualNode) (loc : Location) :
    findLocation (removeLocation s loc) loc._key = none ∧
    (removeLocation s loc)._successors.count loc._key = s._successors.count loc._key - 1 ∧
    (∀ k, k ≠ loc._key → (k ∈ (removeLocation s loc)._successors ↔ k ∈ s._successors)) ∧
    (s._successors.count loc._key ≤ 1 → loc._key ∉ (removeLocation s loc)._successors) ∧
    (removeLocation s loc)._predecessor =
      (if s._predecessor = some loc._key then none else s._predecessor) ∧
    ∀ k, k ≠ loc._key → findLocation (removeLocation s loc) k = findLocation s k := by
  have hcount : (removeLocation s loc)._successors.count loc._key =
      s._successors.count loc._key - 1 := by
    show (SuccList.removeKey s._successors loc._key).count loc._key = _
    unfold SuccList.removeKey
    exact List.count_erase_self _ _
  refine ⟨findLocation_removeLocation_self s._lt loc, hcount, ?_, ?_, rfl,
    fun k hk => findLocation_removeLocation_other s._lt loc k hk⟩
  · intro k hk
    show k ∈ SuccList.removeKey s._successors loc._key ↔ _
    unfold SuccList.removeKey
    exact List.mem_erase_of_ne hk
  · intro hle
    rw [← List.count_eq_zero, hcount]
    exact Nat.sub_eq_zero_of_le hle

/-- C15 (amended) at node 2 (successor list 6, 10; predecessor 14) for the Location of
node 10, which is listed once. -/
theorem removeLocation_postcondition_witness :
    findLocation (removeLocation node2 (Location.mk 10 1010)) 10 = none ∧
    (10 : DHTKey) ∉ (removeLocation node2 (Location.mk 10 1010))._successors ∧
    (removeLocation node2 (Location.mk 10 1010))._predecessor = some 14 ∧
    ∀ k, k ≠ 10 →
      findLocation (removeLocation node2 (Location.mk 10 1010)) k = findLocation node2 k :=
  ⟨(removeLocation_postcondition node2 (Location.mk 10 1010)).1,
   (removeLocation_postcondition node2 (Location.mk 10 1010)).2.2.2.1 (by decide),
   (removeLocation_postcondition node2 (Location.mk 10 1010)).2.2.2.2.1,
   (removeLocation_postcondition node2 (Location.mk 10 1010)).2.2.2.2.2⟩

/-! ## join -/

/-- C11 (counterexample): node 8 joins through node 6, and the bootstrap answers with local
error OK, remote status OK and the key 0. `join` does not return the local error: the
key fails `assert(dk.count()>0)` in `setSuccessor`. -/
theorem join_zero_key_answer :
    joinAnswer zeroBootstrap unjoinedNode 6 1006 0 =
      (DHT_ERR_OK, SuccOut.mk 0 1000 DHT_ERR_OK) ∧
    join zeroBootstrap unjoinedNode 6 1006 8 0 =
      (Outcome.assertFailed, [Call.RPC_joinGetSucc 6 1006]) ∧
    ∀ res, (join zeroBootstrap unjoinedNode 6 1006 8 0).1 ≠ Outcome.returned res := by
  have h : join zeroBootstrap unjoinedNode 6 1006 8 0 =
      (Outcome.assertFailed, [Call.RPC_joinGetSucc 6 1006]) := rfl
  refine ⟨rfl, h, fun res => ?_⟩
  rw [h]
  exact fun h1 => Outcome.noConfusion h1

/-- C11 (amended): for every state and every answer of `RPC_joinGetSucc` whose key is
non-zero when local error and remote status are both OK, `join` makes that one call and
returns the RPC's local error (with `status` as the RPC left it); afterwards the
predecessor is unset; if the local error is not OK the successor, the finger table and the
location table are unchanged; if local error and remote status are both OK the state is
the one `setSuccessor(key, address)` gives, with the returned key as successor and a
Location for it in the table; and otherwise nothing but the predecessor has changed. -/
theorem join_postcondition (pnode : DHTNode) (s : DHTVirtualNode) (dk_bootstrap : DHTKey)
    (dk_bootstrap_na : NetAddress) (senderKey : DHTKey) (status : Int)
    (hz : (joinAnswer pnode s dk_bootstrap dk_bootstrap_na status).1 = DHT_ERR_OK →
      (joinAnswer pnode s dk_bootstrap dk_bootstrap_na status).2.status = DHT_ERR_OK →
      (joinAnswer pnode s dk_bootstrap dk_bootstrap_na status).2.dkres ≠ 0) :
    ∃ s1,
      join pnode s dk_bootstrap dk_bootstrap_na senderKey status =
        (Outcome.returned
          ((joinAnswer pnode s dk_bootstrap dk_bootstrap_na status).1,
           (joinAnswer pnode s dk_bootstrap dk_bootstrap_na status).2.status, s1),
         [Call.RPC_joinGetSucc dk_bootstrap dk_bootstrap_na]) ∧
      s1._predecessor = none ∧
      ((joinAnswer pnode s dk_bootstrap dk_bootstrap_na status).1 ≠ DHT_ERR_OK →
        s1._successor = s._successor ∧ s1._fgt = s._fgt ∧ s1._lt = s._lt) ∧
      ((joinAnswer pnode s dk_bootstrap dk_bootstrap_na status).1 = DHT_ERR_OK ∧
        (joinAnswer pnode s dk_bootstrap dk_bootstrap_na status).2.status = DHT_ERR_OK →
        setSuccessor { s with _predecessor := none }
            (joinAnswer pnode s dk_bootstrap dk_bootstrap_na status).2.dkres
            (joinAnswer pnode s dk_bootstrap dk_bootstrap_na status).2.na =
          Outcome.returned s1 ∧
        s1._successor = some (joinAnswer pnode s dk_bootstrap dk_bootstrap_na status).2.dkres ∧
        (findLocation s1
          (joinAnswer pnode s dk_bootstrap dk_bootstrap_na status).2.dkres).isSome = true) ∧
      (¬ ((joinAnswer pnode s dk_bootstrap dk_bootstrap_na status).1 = DHT_ERR_OK ∧
          (joinAnswer pnode s dk_bootstrap dk_bootstrap_na status).2.status = DHT_ERR_OK) →
        s1 = { s with _predecessor := none }) := by
  unfold join
  unfold joinAnswer at hz ⊢
  simp only
  generalize pnode.RPC_joinGetSucc dk_bootstrap dk_bootstrap_na s._idkey pnode._l1_na
      (SuccOut.mk 0 0 status) = r at hz ⊢
  by_cases herr : r.1 = DHT_ERR_OK
  · by_cases hst : r.2.status = DHT_ERR_OK
    · obtain ⟨s1, h1, hs1, hp1, _, hlt1, _, _⟩ :=
        setSuccessor_spec { s with _predecessor := none } r.2.dkres r.2.na (hz herr hst)
      have hfound : (findLocation s1 r.2.dkres).isSome = true := by
        unfold findLocation
        rw [findLocation_isSome_iff, hlt1]
        split
        · exact (mem_keys_refresh _ _ _ _).2 (Or.inr rfl)
        · exact (mem_keys_ensure _ _ _ _).2 (Or.inr rfl)
      rw [if_neg (by simp [herr]), if_pos hst, h1]
      exact ⟨s1, rfl, hp1, fun h => absurd herr h, fun _ => ⟨rfl, hs1, hfound⟩,
        fun h => absurd ⟨herr, hst⟩ h⟩
    · rw [if_neg (by simp [herr]), if_neg hst]
      exact ⟨_, rfl, rfl, fun h => absurd herr h, fun h => absurd h.2 hst, fun _ => rfl⟩
  · rw [if_pos herr]
    exact ⟨_, rfl, rfl, fun _ => ⟨rfl, rfl, rfl⟩, fun h => absurd h.1 herr, fun _ => rfl⟩

/-- C11 (amended) at node 8 joining the ring {2, 6, 10, 14} through node 2, which names
node 6 as successor. -/
theorem join_postcondition_witness :
    ∃ s1,
      join liveRing unjoinedNode 2 1002 8 0 =
        (Outcome.returned
          ((joinAnswer liveRing unjoinedNode 2 1002 0).1,
           (joinAnswer liveRing unjoinedNode 2 1002 0).2.status, s1),
         [Call.RPC_joinGetSucc 2 1002]) ∧
      s1._predecessor = none ∧
      ((joinAnswer liveRing unjoinedNode 2 1002 0).1 ≠ DHT_ERR_OK →
        s1._successor = unjoinedNode._successor ∧ s1._fgt = unjoinedNode._fgt ∧
        s1._lt = unjoinedNode._lt) ∧
      ((joinAnswer liveRing unjoinedNode 2 1002 0).1 = DHT_ERR_OK ∧
        (joinAnswer liveRing unjoinedNode 2 1002 0).2.status = DHT_ERR_OK →
        setSuccessor { unjoinedNode with _predecessor := none }
            (joinAnswer liveRing unjoinedNode 2 1002 0).2.dkres
            (joinAnswer liveRing unjoinedNode 2 1002 0).2.na =
          Outcome.returned s1 ∧
        s1._successor = some (joinAnswer liveRing unjoinedNode 2 1002 0).2.dkres ∧
        (findLocation s1 (joinAnswer liveRing unjoinedNode 2 1002 0).2.dkres).isSome = true) ∧
      (¬ ((joinAnswer liveRing unjoinedNode 2 1002 0).1 = DHT_ERR_OK ∧
          (joinAnswer liveRing unjoinedNode 2 1002 0).2.status = DHT_ERR_OK) →
        s1 = { unjoinedNode with _predecessor := none }) :=
  join_postcondition liveRing unjoinedNode 2 1002 8 0 (fun _ _ => by decide)

/-! ## notify and the node's own id -/

/-- C14 (counterexample): a `notify` whose sender key is the node's own id is accepted
when no predecessor is set (node 4, alone) and when the predecessor is dead (node 10, whose
predecessor 2 does not answer the ping); both nodes satisfy the invariant before and have
themselves as predecessor afterwards. -/
theorem notify_own_id_accepted :
    (loneNode._predecessor = none ∧ loneNode._idkey = 4 ∧
      ∃ s1 calls, notify loneProcess loneNode 4 1004 =
          (Outcome.returned (DHT_ERR_OK, s1), calls) ∧
        s1._predecessor = some s1._idkey) ∧
    (node10._predecessor = some 2 ∧ node10._idkey = 10 ∧
      (is_dead loneProcess node10 2 1002 0).1 = true ∧
      ∃ s1 calls, notify loneProcess node10 10 1010 =
          (Outcome.returned (DHT_ERR_OK, s1), calls) ∧
        s1._predecessor = some s1._idkey) :=
  ⟨⟨rfl, rfl, _, _, rfl, rfl⟩, ⟨rfl, rfl, rfl, _, _, rfl, rfl⟩⟩

/-- C14 (amended): from a state whose predecessor, if set, differs from the node's own id
and has an entry in the location table, `notify` returns `DHT_ERR_OK`, leaves the node's id
alone and leaves a predecessor that is unset or differs from the node's own id, for every
sender key and address, a sender key equal to the node's own id included as long as a
predecessor is set and `is_dead` reports it alive. The predecessor afterwards is the sender
when `notify` accepts it, and the state is unchanged otherwise. -/
theorem notify_keeps_predecessor_off_self (pnode : DHTNode) (s : DHTVirtualNode)
    (senderKey : DHTKey) (senderAddress : NetAddress)
    (hinv : ∀ p, s._predecessor = some p → p ≠ s._idkey)
    (hpred : ∀ p, s._predecessor = some p → (findLocation s p).isSome = true)
    (hown : senderKey = s._idkey →
      ∃ p loc, s._predecessor = some p ∧ findLocation s p = some loc ∧
        (is_dead pnode s loc._key loc._na 0).1 = false) :
    ∃ s1 calls,
      notify pnode s senderKey senderAddress = (Outcome.returned (DHT_ERR_OK, s1), calls) ∧
      s1._idkey = s._idkey ∧ (∀ p, s1._predecessor = some p → p ≠ s1._idkey) ∧
      (accepts pnode s senderKey → s1._predecessor = some senderKey) ∧
      (¬ accepts pnode s senderKey → s1 = s) := by
  obtain ⟨calls, _, ⟨hacc, hrun⟩ | ⟨hacc, hrun⟩⟩ :=
    notify_spec pnode s senderKey senderAddress hpred
  · have hne : senderKey ≠ s._idkey := by
      intro heq
      obtain ⟨p, loc, hp, hl, halive⟩ := hown heq
      rcases hacc with h | ⟨q, l2, hq, hl2, hd⟩ | ⟨q, hq, hb⟩
      · rw [hp] at h
        exact Option.noConfusion h
      · rw [hp] at hq
        cases hq
        rw [hl] at hl2
        cases hl2
        rw [halive] at hd
        exact Bool.noConfusion hd
      · rw [heq, between_right_endpoint] at hb
        exact Bool.noConfusion hb
    refine ⟨_, _, hrun, rfl, ?_, fun _ => rfl, fun h => absurd hacc h⟩
    intro p hp
    obtain rfl : senderKey = p := Option.some.inj hp
    exact hne
  · exact ⟨_, _, hrun, rfl, hinv, fun h => absurd h hacc, fun _ => rfl⟩

theorem node10_predecessor_off_self (p : DHTKey) (h : node10._predecessor = some p) :
    p ≠ node10._idkey := by
  obtain rfl : 2 = p := Option.some.inj h
  decide

/-- C14 (amended) at node 10 with the live predecessor 2, notified with its own id 10 as
sender key. -/
theorem notify_keeps_predecessor_off_self_witness :
    ∃ s1 calls,
      notify liveRing node10 10 1010 = (Outcome.returned (DHT_ERR_OK, s1), calls) ∧
      s1._idkey = node10._idkey ∧ (∀ p, s1._predecessor = some p → p ≠ s1._idkey) ∧
      (accepts liveRing node10 10 → s1._predecessor = some 10) ∧
      (¬ accepts liveRing node10 10 → s1 = node10) :=
  notify_keeps_predecessor_off_self liveRing node10 10 1010 node10_predecessor_off_self
    node10_predecessor_found (fun _ => ⟨2, Location.mk 2 1002, rfl, rfl, rfl⟩)

end DHTVirtualNode

end dht
